import Mathlib

/-!
Verification of the Go teaching examples `01_basic_example.go` and `02_type_assertions.go`

Shallow embedding of the helper functions of the two programs, followed by the
theorems that settle the claims of the specification.

Conventions of the embedding
* Go `int` is the 64-bit two's-complement integer type: values are `Int`, and every
  arithmetic operation is followed by `wrapInt`, the reduction into `[-2^63, 2^63)`.
* Go `float64` is `F64`, a model of IEEE 754 binary64 in which every operation rounds to
  nearest, ties to even, with signed zeros, subnormal numbers, infinities and one NaN.  The
  claims about the values that `dividir`, `calcularDescuento`, `calcularEstadisticas` and
  `operar` return are settled on their embeddings over `F64` (namespace `Flotante`).
  `calcularDescuento`, `calcularEstadisticas` and `operar` also have an embedding over the
  exact rationals `ℚ`, used only for the claims about their branches, errors and
  comparisons.
* Go `error` is `Option String`: `none` is `nil`, `some msg` is an error with that message.
* Go `string` is `String`, a sequence of Unicode code points (text that is valid UTF-8);
  the functions of package `strings` that the programs call are modelled in namespace
  `Strings`.  The rune tables `unicode.ToLower` and `unicode.ToUpper` are not reproduced:
  the functions that change the case of their input take the table as their first
  argument, and every theorem holds for every such table.
* Function values of type `func(int) int` are pure total functions `Int → Int` where a
  claim speaks of unary functions; `FuncGo` adds `nil` and functions that panic.
* A run-time panic (index or slice bound out of range, call of a `nil` function value) is
  the `none` of an `Option` result; `dividirPorLongitud` treats a zero length in the same
  way.
* Console output is a list of the texts written, in order.
-/

set_option autoImplicit false

/-! ## Machine integers -/

/-- Reduction of an exact integer into the range of Go's 64-bit `int`. -/
def wrapInt (x : Int) : Int := (x + 2 ^ 63) % 2 ^ 64 - 2 ^ 63

/-- Predicate selecting the values a Go `int` can hold. -/
def esInt (x : Int) : Prop := -(2 ^ 63) ≤ x ∧ x < 2 ^ 63

instance (x : Int) : Decidable (esInt x) := by unfold esInt; infer_instance

/-- Go's `+` on `int`. -/
def addInt (a b : Int) : Int := wrapInt (a + b)

/-- Go's `*` on `int`. -/
def mulInt (a b : Int) : Int := wrapInt (a * b)

/-! ## The type `float64` -/

/-- A value of Go's `float64` (IEEE 754 binary64): a sign and the low 63 bits of the bit
pattern (exponent field and fraction field), `0x7FF0000000000000` standing for infinity; or
NaN, whose payloads are not told apart. -/
inductive F64 where
  | num (negativo : Bool) (mag : Nat) (h : mag ≤ 9218868437227405312)
  | nan
deriving DecidableEq, Repr

namespace F64

/-- The magnitude bits of infinity, `0x7FF0000000000000`. -/
def magInf : Nat := 9218868437227405312

/-- The value with the given sign and magnitude bits; magnitudes past the largest finite one
are infinity. -/
def deMag (negativo : Bool) (mag : Nat) : F64 :=
  if h : mag ≤ 9218868437227405312 then num negativo mag h else num negativo magInf (le_refl _)

/-- The value with the given 64-bit pattern, as `math.Float64frombits`. -/
def deBits (bits : Nat) : F64 :=
  if bits % 9223372036854775808 ≤ 9218868437227405312 then
    deMag (decide (bits % 18446744073709551616 ≥ 9223372036854775808)) (bits % 9223372036854775808)
  else nan

/-- The 64-bit pattern of a value, as `math.Float64bits`, NaN giving `0x7FF8000000000000`. -/
def aBits : F64 → Nat
  | num negativo mag _ => (if negativo then 9223372036854775808 else 0) + mag
  | nan => 9221120237041090560

/-- Positive zero, the value of the constant `0`. -/
def cero : F64 := deMag false 0

/-- Integer significand of a finite magnitude. -/
def mantisa (mag : Nat) : Nat :=
  if mag / 4503599627370496 = 0 then mag % 4503599627370496
  else mag % 4503599627370496 + 4503599627370496

/-- Exponent of the unit in the last place of a finite magnitude: the value is
`mantisa * 2 ^ exponente`. -/
def exponente (mag : Nat) : Int :=
  if mag / 4503599627370496 = 0 then -1074 else (mag / 4503599627370496 : Nat) - 1075

/-- Binary search for the binary logarithm: the thresholds are tried from the largest. -/
def log2Aux : List Nat → Nat → Nat → Nat
  | [], _, acc => acc
  | i :: resto, n, acc =>
    if 2 ^ i ≤ n then log2Aux resto (n / 2 ^ i) (acc + i) else log2Aux resto n acc

/-- The binary logarithm rounded down, `Nat.log2`, found by binary search for the numbers
below `2 ^ 16384`, a bound that exceeds every number the operations of this section deal
with. -/
def log2 (n : Nat) : Nat :=
  if n < 2 ^ 16384 then
    log2Aux [8192, 4096, 2048, 1024, 512, 256, 128, 64, 32, 16, 8, 4, 2, 1] n 0
  else Nat.log2 n

/-- Rounding to nearest, ties to even, of the rational `p / q` (`q > 0`) with the given
sign; overflow gives infinity and `p = 0` gives a zero. -/
def redondear (negativo : Bool) (p q : Nat) : F64 :=
  if p = 0 ∨ q = 0 then deMag negativo 0
  else
    let e0 : Int := (log2 p : Int) - (log2 q : Int)
    let e : Int := if q * 2 ^ e0.toNat ≤ p * 2 ^ (-e0).toNat then e0 else e0 - 1
    let eN : Int := max e (-1022)
    let k : Int := eN - 52
    let numerador := p * 2 ^ (-k).toNat
    let denominador := q * 2 ^ k.toNat
    let n := numerador / denominador
    let r := numerador % denominador
    let n1 := if denominador < 2 * r ∨ (2 * r = denominador ∧ n % 2 = 1) then n + 1 else n
    deMag negativo ((eN + 1022).toNat * 4503599627370496 + n1)

/-- Rounding of the dyadic number `± m * 2 ^ k`. -/
def redondearDiadico (negativo : Bool) (m : Nat) (k : Int) : F64 :=
  redondear negativo (m * 2 ^ k.toNat) (2 ^ (-k).toNat)

/-- Conversion `float64(n)` of an integer. -/
def deInt (n : Int) : F64 := redondear (decide (n < 0)) n.natAbs 1

/-- The value of a decimal constant `p / q`, such as `0.20 = 20 / 100`. -/
def lit (p q : Nat) : F64 := redondear false p q

/-- Unary minus. -/
def neg : F64 → F64
  | num negativo mag h => num (!negativo) mag h
  | nan => nan

/-- Go's `+` on `float64`. -/
def add : F64 → F64 → F64
  | num sa ma _, num sb mb _ =>
    if ma = magInf then
      if mb = magInf then (if sa = sb then deMag sa magInf else nan) else deMag sa magInf
    else if mb = magInf then deMag sb magInf
    else
      let k : Int := min (exponente ma) (exponente mb)
      let a : Int := (if sa then -1 else 1) * ((mantisa ma * 2 ^ (exponente ma - k).toNat : Nat) : Int)
      let b : Int := (if sb then -1 else 1) * ((mantisa mb * 2 ^ (exponente mb - k).toNat : Nat) : Int)
      let s : Int := a + b
      if s = 0 then deMag (sa && sb) 0
      else redondearDiadico (decide (s < 0)) s.natAbs k
  | _, _ => nan

/-- Go's `-` on `float64`. -/
def sub (a b : F64) : F64 := add a (neg b)

/-- Go's `*` on `float64`. -/
def mul : F64 → F64 → F64
  | num sa ma _, num sb mb _ =>
    if ma = magInf then
      if mb = 0 then nan else deMag (xor sa sb) magInf
    else if mb = magInf then
      if ma = 0 then nan else deMag (xor sa sb) magInf
    else
      redondearDiadico (xor sa sb) (mantisa ma * mantisa mb) (exponente ma + exponente mb)
  | _, _ => nan

/-- Go's `/` on `float64`. -/
def div : F64 → F64 → F64
  | num sa ma _, num sb mb _ =>
    if ma = magInf then
      if mb = magInf then nan else deMag (xor sa sb) magInf
    else if mb = magInf then deMag (xor sa sb) 0
    else if mb = 0 then
      if ma = 0 then nan else deMag (xor sa sb) magInf
    else
      let d : Int := exponente ma - exponente mb
      redondear (xor sa sb) (mantisa ma * 2 ^ d.toNat) (mantisa mb * 2 ^ (-d).toNat)
  | _, _ => nan

/-- The key of the order of the values other than NaN: the magnitude bits with the sign. -/
def clave (negativo : Bool) (mag : Nat) : Int := if negativo then -(mag : Int) else mag

/-- Go's `<` on `float64`. -/
def lt : F64 → F64 → Bool
  | num sa ma _, num sb mb _ => decide (clave sa ma < clave sb mb)
  | _, _ => false

/-- Go's `<=` on `float64`. -/
def le : F64 → F64 → Bool
  | num sa ma _, num sb mb _ => decide (clave sa ma ≤ clave sb mb)
  | _, _ => false

/-- Go's `==` on `float64`. -/
def eq : F64 → F64 → Bool
  | num sa ma _, num sb mb _ => decide (clave sa ma = clave sb mb)
  | _, _ => false

/-- Go's `>` on `float64`. -/
def gt (a b : F64) : Bool := lt b a

/-- The exact value of a finite `float64`, as a rational number. -/
def valor : F64 → Option ℚ
  | num negativo mag _ =>
    if mag = magInf then none
    else some ((if negativo then -1 else 1) * (mantisa mag : ℚ) * (2 : ℚ) ^ exponente mag)
  | nan => none

end F64

/-! ## Package `strings` -/

namespace Strings

/-- Go's `unicode.IsSpace`: the code points with the Unicode White_Space property. -/
def isSpace (c : Char) : Bool :=
  let n := c.toNat
  (9 ≤ n && n ≤ 13) || n == 32 || n == 0x85 || n == 0xA0 || n == 0x1680 ||
    (0x2000 ≤ n && n ≤ 0x200A) || n == 0x2028 || n == 0x2029 || n == 0x202F ||
    n == 0x205F || n == 0x3000

/-- Go's `strings.TrimSpace`: the string without its leading and trailing white space. -/
def TrimSpace (s : String) : String :=
  String.mk ((s.data.dropWhile isSpace).reverse.dropWhile isSpace).reverse

/-- Substring search on character lists. -/
def containsList (s substr : List Char) : Bool :=
  match s with
  | [] => substr.isEmpty
  | c :: t => substr.isPrefixOf (c :: t) || containsList t substr

/-- Go's `strings.Contains`. -/
def Contains (s substr : String) : Bool := containsList s.data substr.data

/-- Go's `strings.Join`. -/
def Join (elems : List String) (sep : String) : String :=
  match elems with
  | [] => ""
  | [e] => e
  | e :: resto => resto.foldl (fun b s => (b ++ sep) ++ s) e

/-- Lower-casing of one ASCII byte, `c += 'a' - 'A'` for `'A' ≤ c ≤ 'Z'`. -/
def asciiLower (c : Char) : Char :=
  if 65 ≤ c.toNat ∧ c.toNat ≤ 90 then Char.ofNat (c.toNat + 32) else c

/-- Go's `strings.ToLower`.  ASCII-only text takes the fast path of the library; any other
text is mapped rune by rune through `unicode.ToLower`, the Unicode case table, which is an
argument here. -/
def ToLower (unicodeToLower : Char → Char) (s : String) : String :=
  if s.data.all (fun c => c.toNat < 128) then
    if s.data.any (fun c => 65 ≤ c.toNat && c.toNat ≤ 90) then String.mk (s.data.map asciiLower)
    else s
  else String.mk (s.data.map unicodeToLower)

/-- Upper-casing of one ASCII byte, `c -= 'a' - 'A'` for `'a' ≤ c ≤ 'z'`. -/
def asciiUpper (c : Char) : Char :=
  if 97 ≤ c.toNat ∧ c.toNat ≤ 122 then Char.ofNat (c.toNat - 32) else c

/-- Go's `strings.ToUpper`, with the same structure as `ToLower`: the ASCII fast path of the
library, and the Unicode case table `unicode.ToUpper` as an argument for any other text. -/
def ToUpper (unicodeToUpper : Char → Char) (s : String) : String :=
  if s.data.all (fun c => c.toNat < 128) then
    if s.data.any (fun c => 97 ≤ c.toNat && c.toNat ≤ 122) then String.mk (s.data.map asciiUpper)
    else s
  else String.mk (s.data.map unicodeToUpper)

end Strings

/-! ## `01_basic_example.go` -/

/-- Message of the error returned by `dividir`. -/
def errDivisionPorCero : String := "división por cero no permitida"

/-- Message of the error returned by `calcularDescuento`. -/
def errPrecio : String := "el precio debe ser mayor a cero"

/-- Embedding of `func calcularDescuento(precio float64, categoria string, esMiembro bool)
(float64, string, error)`.  The first argument is the rune table `unicode.ToLower` that
`strings.ToLower` consults on non-ASCII text. -/
def calcularDescuento (unicodeToLower : Char → Char) (precio : ℚ) (categoria : String)
    (esMiembro : Bool) : ℚ × String × Option String :=
  if precio ≤ 0 then (0, "", some errPrecio)
  else
    let clave := Strings.ToLower unicodeToLower categoria
    let porCategoria : ℚ × String :=
      if clave = "premium" then (0.20, "Descuento Premium 20%")
      else if clave = "regular" then (0.10, "Descuento Regular 10%")
      else if clave = "basico" then (0.05, "Descuento Básico 5%")
      else (0, "Sin descuento")
    let conMiembro : ℚ × String :=
      if esMiembro then (porCategoria.1 + 0.05, porCategoria.2 ++ " + Miembro 5%")
      else porCategoria
    (precio * (1 - conMiembro.1), conMiembro.2, none)

/-- Message of the first error of `validarUsuario`. -/
def errNombreVacio : String := "el nombre no puede estar vacío"

/-- Message of the second error of `validarUsuario`. -/
def errEmailInvalido : String := "email inválido"

/-- Message of the third error of `validarUsuario`. -/
def errEdadRango : String := "edad debe estar entre 0 y 120 años"

/-- Embedding of `func validarUsuario(nombre, email string, edad int) error`. -/
def validarUsuario (nombre email : String) (edad : Int) : Option String :=
  if Strings.TrimSpace nombre = "" then some errNombreVacio
  else if (!Strings.Contains email "@" || !Strings.Contains email ".") then
    some errEmailInvalido
  else if edad < 0 ∨ edad > 120 then some errEdadRango
  else none

/-- Message of the error returned by `procesarEdad`. -/
def errEdadNegativa : String := "la edad no puede ser negativa"

/-- Embedding of `func procesarEdad(edad int) (string, error)`. -/
def procesarEdad (edad : Int) : String × Option String :=
  if edad < 0 then ("", some errEdadNegativa)
  else if edad < 18 then ("menor de edad", none)
  else if edad < 65 then ("adulto", none)
  else ("adulto mayor", none)

/-- A running call with its console output so far and its stack of deferred calls, the
most recently deferred first; a deferred call is the effect it has on the output. -/
structure Marco where
  salida : List String
  diferidas : List (List String → List String)

/-- The statement `fmt.Printf` with the text it writes. -/
def imprimir (m : Marco) (texto : String) : Marco :=
  { salida := m.salida ++ [texto], diferidas := m.diferidas }

/-- The statement `defer`: the call is pushed on the stack of deferred calls. -/
def diferir (m : Marco) (llamada : List String → List String) : Marco :=
  { salida := m.salida, diferidas := llamada :: m.diferidas }

/-- The exit of a call, by any `return`: the deferred calls run, last deferred first; the
result is the complete console output of the call. -/
def retornar (m : Marco) : List String :=
  m.diferidas.foldl (fun salida llamada => llamada salida) m.salida

/-- The text written by the first `Printf` of `operacionConRecursos`. -/
def lineaAbrir (archivo : String) : String := "📂 Abriendo archivo: " ++ archivo ++ "\n"

/-- The text written by the deferred closure of `operacionConRecursos`. -/
def lineaCerrar (archivo : String) : String := "🔒 Cerrando archivo: " ++ archivo ++ "\n"

/-- The text written by the second `Printf` of `operacionConRecursos`. -/
def lineaProcesar (archivo : String) : String :=
  "📝 Procesando contenido de: " ++ archivo ++ "\n"

/-- The text written by the last `Printf` of `operacionConRecursos`. -/
def lineaExito (archivo : String) : String :=
  "✅ Archivo procesado exitosamente: " ++ archivo ++ "\n"

/-- Message of the error returned by `operacionConRecursos`. -/
def errProcesar : String := "error al procesar el archivo"

/-- Embedding of `func operacionConRecursos(archivo string) error`: the console output of
the call and the returned error.  `time.Sleep` writes nothing and is left out. -/
def operacionConRecursos (archivo : String) : List String × Option String :=
  let m0 : Marco := { salida := [], diferidas := [] }
  let m1 := imprimir m0 (lineaAbrir archivo)
  let m2 := diferir m1 (fun salida => salida ++ [lineaCerrar archivo])
  let m3 := imprimir m2 (lineaProcesar archivo)
  if archivo = "error.txt" then (retornar m3, some errProcesar)
  else
    let m4 := imprimir m3 (lineaExito archivo)
    (retornar m4, none)

/-! ## `02_type_assertions.go` -/

/-- Embedding of `func sumar(numeros ...int) int`: the loop `total += num` over the arguments. -/
def sumar (numeros : List Int) : Int := numeros.foldl addInt 0

/-- The four named results `(min, max, promedio float64, count int)` of
`calcularEstadisticas`. -/
structure Estadisticas where
  min : ℚ
  max : ℚ
  promedio : ℚ
  count : Nat
deriving DecidableEq, Repr

/-- Body of the loop of `calcularEstadisticas`, on the triple `(min, max, suma)`. -/
def estadisticasPaso (acc : ℚ × ℚ × ℚ) (num : ℚ) : ℚ × ℚ × ℚ :=
  let min := if num < acc.1 then num else acc.1
  let max := if num > acc.2.1 then num else acc.2.1
  (min, max, acc.2.2 + num)

/-- Embedding of `func calcularEstadisticas(numeros ...float64) (min, max, promedio float64,
count int)`; `numeros[0]` is a partial read. -/
def calcularEstadisticas (numeros : List ℚ) : Option Estadisticas :=
  if numeros.length = 0 then some ⟨0, 0, 0, 0⟩
  else
    match numeros[0]? with
    | none => none
    | some primero =>
      let fin := numeros.foldl estadisticasPaso (primero, primero, 0)
      some ⟨fin.1, fin.2.1, fin.2.2 / (numeros.length : ℚ), numeros.length⟩

/-- Embedding of `func concatenar(separador string, elementos ...string) string`. -/
def concatenar (separador : String) (elementos : List String) : String :=
  if elementos.length = 0 then "" else Strings.Join elementos separador

/-- The two slices that `procesarDatos` works with: the caller's `datos` and the slice
`resultado` that `make` allocates, which shares no storage with `datos`. -/
structure Mem where
  datos : List Int
  resultado : List Int
deriving DecidableEq, Repr

/-- Go's `make([]int, n)`. -/
def makeSlice (n : Nat) : List Int := List.replicate n 0

/-- Go's `copy(dst, src)`: the contents of `dst` afterwards. -/
def copySlice (dst src : List Int) : List Int := src.take dst.length ++ dst.drop src.length

/-- The assignment `xs[i] = v`, which panics when `i` is out of range. -/
def escribir (xs : List Int) (i : Nat) (v : Int) : Option (List Int) :=
  if i < xs.length then some (xs.set i v) else none

/-- The inner loop `for i, valor := range resultado { resultado[i] = fn(valor) }` of
`procesarDatos`, at index `i` with `k` iterations left. -/
def aplicarFuncion (fn : Int → Int) : Nat → Nat → List Int → Option (List Int)
  | 0, _, resultado => some resultado
  | k + 1, i, resultado =>
    match resultado[i]? with
    | none => none
    | some valor =>
      match escribir resultado i (fn valor) with
      | none => none
      | some resultado1 => aplicarFuncion fn k (i + 1) resultado1

/-- One iteration of the outer loop `for _, fn := range funciones` of `procesarDatos`. -/
def procesarEtapa (m : Mem) (fn : Int → Int) : Option Mem :=
  (aplicarFuncion fn m.resultado.length 0 m.resultado).map
    (fun r => { datos := m.datos, resultado := r })

/-- Embedding of `func procesarDatos(datos []int, funciones ...func(int) int) []int` on the
memory: the final contents of both slices.  The functions are pure and total. -/
def procesarDatosMem (datos : List Int) (funciones : List (Int → Int)) : Option Mem :=
  funciones.foldlM procesarEtapa
    { datos := datos, resultado := copySlice (makeSlice datos.length) datos }

/-- The slice returned by `procesarDatos`. -/
def procesarDatos (datos : List Int) (funciones : List (Int → Int)) : Option (List Int) :=
  (procesarDatosMem datos funciones).map Mem.resultado

/-- The closure `duplicar` of `main`. -/
def duplicar (x : Int) : Int := mulInt x 2

/-- The closure `sumarUno` of `main`. -/
def sumarUno (x : Int) : Int := addInt x 1

/-- The slice expression `xs[i:]`, which panics when `i` exceeds the length. -/
def rebanarDesde (xs : List ℚ) (i : Nat) : Option (List ℚ) :=
  if i ≤ xs.length then some (xs.drop i) else none

/-- Message of the first error of `operar`. -/
def errSinNumeros : String := "se requiere al menos un número"

/-- Message of the second error of `operar`, `"operación '%s' no soportada"`. -/
def errNoSoportada (operacion : String) : String :=
  "operación '" ++ operacion ++ "' no soportada"

/-- Embedding of `func operar(operacion string, numeros ...float64) (float64, error)`;
`numeros[0]` and `numeros[1:]` are partial.  The first argument is the rune table
`unicode.ToLower`. -/
def operar (unicodeToLower : Char → Char) (operacion : String) (numeros : List ℚ) :
    Option (ℚ × Option String) :=
  if numeros.length = 0 then some (0, some errSinNumeros)
  else
    match numeros[0]? with
    | none => none
    | some primero =>
      let clave := Strings.ToLower unicodeToLower operacion
      if clave = "suma" then
        (rebanarDesde numeros 1).map
          (fun resto => (resto.foldl (fun resultado num => resultado + num) primero, none))
      else if clave = "multiplicacion" then
        (rebanarDesde numeros 1).map
          (fun resto => (resto.foldl (fun resultado num => resultado * num) primero, none))
      else if clave = "maximo" then
        (rebanarDesde numeros 1).map
          (fun resto =>
            (resto.foldl (fun resultado num => if num > resultado then num else resultado)
              primero, none))
      else if clave = "minimo" then
        (rebanarDesde numeros 1).map
          (fun resto =>
            (resto.foldl (fun resultado num => if num < resultado then num else resultado)
              primero, none))
      else some (0, some (errNoSoportada operacion))

/-- Embedding of `func validarCampos(requeridos bool, campos ...string) (bool, []string)`. -/
def validarCampos (requeridos : Bool) (campos : List String) : Bool × List String :=
  let camposVacios : List String :=
    campos.foldl
      (fun vacios campo =>
        if Strings.TrimSpace campo = "" then vacios ++ ["campo vacío"] else vacios) []
  if requeridos && decide (camposVacios.length > 0) then (false, camposVacios)
  else (decide (camposVacios.length = 0), camposVacios)

/-- Embedding of `func construirSQL(tabla string, operacion string, condiciones ...string)
string`; the `strings.Builder` is the text written so far.  The first argument is the rune
table `unicode.ToUpper`. -/
def construirSQL (unicodeToUpper : Char → Char) (tabla operacion : String)
    (condiciones : List String) : String :=
  let clave := Strings.ToUpper unicodeToUpper operacion
  let query0 : String := ""
  let inicio : Option String :=
    if clave = "SELECT" then some (query0 ++ ("SELECT * FROM " ++ tabla))
    else if clave = "DELETE" then some (query0 ++ ("DELETE FROM " ++ tabla))
    else if clave = "UPDATE" then some (query0 ++ ("UPDATE " ++ tabla ++ " SET "))
    else none
  match inicio with
  | none => "Operación no soportada"
  | some query1 =>
    let query2 :=
      if condiciones.length > 0 then
        (query1 ++ " WHERE ") ++ Strings.Join condiciones " AND "
      else query1
    query2 ++ ";"

/-- The closure `elevarCuadrado` of `main`. -/
def elevarCuadrado (x : Int) : Int := mulInt x x

/-! ## The functions on `float64`, over the binary64 model

The functions that compute with `float64` are embedded a second time over `F64`, where
every operation rounds as the machine does.  The claims about the values these functions
return are settled on these embeddings. -/

namespace Flotante

/-- Embedding of `func dividir(a, b float64) (float64, error)`. -/
def dividir (a b : F64) : F64 × Option String :=
  if F64.eq b F64.cero then (F64.cero, some errDivisionPorCero) else (F64.div a b, none)

/-- Embedding of `func calcularDescuento(precio float64, categoria string, esMiembro bool)
(float64, string, error)`; the constants `0.20`, `0.10`, `0.05` and `1` are the nearest
binary64 values.  The first argument is the rune table `unicode.ToLower`. -/
def calcularDescuento (unicodeToLower : Char → Char) (precio : F64) (categoria : String)
    (esMiembro : Bool) : F64 × String × Option String :=
  if F64.le precio F64.cero then (F64.cero, "", some errPrecio)
  else
    let clave := Strings.ToLower unicodeToLower categoria
    let porCategoria : F64 × String :=
      if clave = "premium" then (F64.lit 20 100, "Descuento Premium 20%")
      else if clave = "regular" then (F64.lit 10 100, "Descuento Regular 10%")
      else if clave = "basico" then (F64.lit 5 100, "Descuento Básico 5%")
      else (F64.cero, "Sin descuento")
    let conMiembro : F64 × String :=
      if esMiembro then
        (F64.add porCategoria.1 (F64.lit 5 100), porCategoria.2 ++ " + Miembro 5%")
      else porCategoria
    (F64.mul precio (F64.sub (F64.deInt 1) conMiembro.1), conMiembro.2, none)

/-- The four named results `(min, max, promedio float64, count int)` of
`calcularEstadisticas`. -/
structure Estadisticas where
  min : F64
  max : F64
  promedio : F64
  count : Nat
deriving DecidableEq, Repr

/-- Body of the loop of `calcularEstadisticas`, on the triple `(min, max, suma)`. -/
def estadisticasPaso (acc : F64 × F64 × F64) (num : F64) : F64 × F64 × F64 :=
  let min := if F64.lt num acc.1 then num else acc.1
  let max := if F64.gt num acc.2.1 then num else acc.2.1
  (min, max, F64.add acc.2.2 num)

/-- Embedding of `func calcularEstadisticas(numeros ...float64) (min, max, promedio float64,
count int)`; `numeros[0]` is a partial read. -/
def calcularEstadisticas (numeros : List F64) : Option Estadisticas :=
  if numeros.length = 0 then some ⟨F64.cero, F64.cero, F64.cero, 0⟩
  else
    match numeros[0]? with
    | none => none
    | some primero =>
      let fin := numeros.foldl estadisticasPaso (primero, primero, F64.cero)
      some ⟨fin.1, fin.2.1, F64.div fin.2.2 (F64.deInt numeros.length), numeros.length⟩

/-- A division by `float64(len(numeros))` that is checked: it fails when the length is
zero. -/
def dividirPorLongitud (suma : F64) (longitud : Nat) : Option F64 :=
  if longitud = 0 then none else some (F64.div suma (F64.deInt longitud))

/-- Embedding of `calcularEstadisticas` in which the division by `float64(len(numeros))` is
checked as well as the read `numeros[0]`. -/
def calcularEstadisticasVerificado (numeros : List F64) : Option Estadisticas :=
  if numeros.length = 0 then some ⟨F64.cero, F64.cero, F64.cero, 0⟩
  else
    match numeros[0]? with
    | none => none
    | some primero =>
      let fin := numeros.foldl estadisticasPaso (primero, primero, F64.cero)
      match dividirPorLongitud fin.2.2 numeros.length with
      | none => none
      | some promedio => some ⟨fin.1, fin.2.1, promedio, numeros.length⟩

/-- The slice expression `xs[i:]`, which panics when `i` exceeds the length. -/
def rebanarDesde (xs : List F64) (i : Nat) : Option (List F64) :=
  if i ≤ xs.length then some (xs.drop i) else none

/-- Embedding of `func operar(operacion string, numeros ...float64) (float64, error)`;
`numeros[0]` and `numeros[1:]` are partial.  The first argument is the rune table
`unicode.ToLower`. -/
def operar (unicodeToLower : Char → Char) (operacion : String) (numeros : List F64) :
    Option (F64 × Option String) :=
  if numeros.length = 0 then some (F64.cero, some errSinNumeros)
  else
    match numeros[0]? with
    | none => none
    | some primero =>
      let clave := Strings.ToLower unicodeToLower operacion
      if clave = "suma" then
        (rebanarDesde numeros 1).map
          (fun resto => (resto.foldl (fun resultado num => F64.add resultado num) primero, none))
      else if clave = "multiplicacion" then
        (rebanarDesde numeros 1).map
          (fun resto => (resto.foldl (fun resultado num => F64.mul resultado num) primero, none))
      else if clave = "maximo" then
        (rebanarDesde numeros 1).map
          (fun resto =>
            (resto.foldl (fun resultado num => if F64.gt num resultado then num else resultado)
              primero, none))
      else if clave = "minimo" then
        (rebanarDesde numeros 1).map
          (fun resto =>
            (resto.foldl (fun resultado num => if F64.lt num resultado then num else resultado)
              primero, none))
      else some (F64.cero, some (errNoSoportada operacion))

end Flotante

/-! ## Function values that may be `nil` or panic -/

/-- A Go value of type `func(int) int`: `none` is `nil`; a function maps its argument to
`none` when the call panics. -/
abbrev FuncGo := Option (Int → Option Int)

/-- The function value that computes a pure total function. -/
def FuncGo.pura (g : Int → Int) : FuncGo := some (fun x => some (g x))

/-- The call `fn(valor)`, which panics when `fn` is `nil` or when the function does. -/
def llamar (fn : FuncGo) (valor : Int) : Option Int :=
  match fn with
  | none => none
  | some g => g valor

/-- The inner loop `for i, valor := range resultado { resultado[i] = fn(valor) }` of
`procesarDatos` for an arbitrary function value, at index `i` with `k` iterations left. -/
def aplicarFuncionGo (fn : FuncGo) : Nat → Nat → List Int → Option (List Int)
  | 0, _, resultado => some resultado
  | k + 1, i, resultado =>
    match resultado[i]? with
    | none => none
    | some valor =>
      match llamar fn valor with
      | none => none
      | some nuevo =>
        match escribir resultado i nuevo with
        | none => none
        | some resultado1 => aplicarFuncionGo fn k (i + 1) resultado1

/-- Embedding of `func procesarDatos(datos []int, funciones ...func(int) int) []int` for
arbitrary function values. -/
def procesarDatosGo (datos : List Int) (funciones : List FuncGo) : Option (List Int) :=
  funciones.foldlM (fun resultado fn => aplicarFuncionGo fn resultado.length 0 resultado)
    (copySlice (makeSlice datos.length) datos)

/-! ## Definitions that follow the words of the specification -/

/-- The float64 sum that a loop `resultado += num` accumulates from left to right,
starting from the first element. -/
def sumaIzquierda : List F64 → F64
  | [] => F64.cero
  | x :: resto => resto.foldl F64.add x

/-- The float64 product that a loop `resultado *= num` accumulates from left to right,
starting from the first element. -/
def productoIzquierda : List F64 → F64
  | [] => F64.cero
  | x :: resto => resto.foldl F64.mul x

/-- The base rate of the specification's lookup table as binary64 constants. -/
def tasaCategoria64 (clave : String) : F64 :=
  if clave = "premium" then F64.lit 20 100
  else if clave = "regular" then F64.lit 10 100
  else if clave = "basico" then F64.lit 5 100
  else F64.cero

/-- The specification's flat membership bonus as a binary64 constant. -/
def bonoMiembro64 (esMiembro : Bool) : F64 := if esMiembro then F64.lit 5 100 else F64.cero

/-- The base rate of the specification's lookup table
`premium→0.20, regular→0.10, basico→0.05, other→0`, on the lower-cased category. -/
def tasaCategoria (clave : String) : ℚ :=
  if clave = "premium" then 0.20
  else if clave = "regular" then 0.10
  else if clave = "basico" then 0.05
  else 0

/-- The specification's flat membership bonus. -/
def bonoMiembro (esMiembro : Bool) : ℚ := if esMiembro then 0.05 else 0

/-- The value `fn(...f2(f1(x))...)` of the specification: the functions applied to `x` in
order, the first of the list innermost. -/
def aplicarEnOrden : List (Int → Int) → Int → Int
  | [], x => x
  | f :: fs, x => aplicarEnOrden fs (f x)

/-- The clause of the specification that follows the prefix of a statement: nothing when no
condition is given, otherwise `" WHERE "` and the conditions with `" AND "` between each
adjacent pair. -/
def clausulaWhere (condiciones : List String) : String :=
  if condiciones = [] then ""
  else " WHERE " ++ String.join (condiciones.intersperse " AND ")

/-! ## Auxiliary lemmas -/

theorem wrapInt_of_esInt (x : Int) (h : esInt x) : wrapInt x = x := by
  unfold esInt at h
  unfold wrapInt
  omega

theorem wrapInt_add_left (a b : Int) : wrapInt (wrapInt a + b) = wrapInt (a + b) := by
  unfold wrapInt
  omega

theorem wrapInt_add_right (a b : Int) : wrapInt (a + wrapInt b) = wrapInt (a + b) := by
  unfold wrapInt
  omega

theorem foldl_addInt (xs : List Int) (t : Int) :
    xs.foldl addInt (wrapInt t) = wrapInt (t + xs.sum) := by
  induction xs generalizing t with
  | nil => simp
  | cons x xs ih =>
    have hstep : addInt (wrapInt t) x = wrapInt (t + x) := wrapInt_add_left t x
    simp only [List.foldl_cons, List.sum_cons]
    rw [hstep, ih, add_assoc]

theorem sumar_eq_wrap_sum (xs : List Int) : sumar xs = wrapInt xs.sum := by
  have h := foldl_addInt xs 0
  have h0 : wrapInt 0 = 0 := by decide
  rw [h0, zero_add] at h
  exact h

/-! ### Lemmas on package `strings` -/

theorem Strings.dropWhile_all_iff (p : Char → Bool) (l : List Char) :
    (∀ x ∈ l.dropWhile p, p x = true) ↔ ∀ x ∈ l, p x = true := by
  constructor
  · intro h
    by_cases hnil : l.dropWhile p = []
    · exact List.dropWhile_eq_nil_iff.mp hnil
    · have hhead := List.head_dropWhile_not p l hnil
      have hmem := List.head_mem hnil
      rw [h _ hmem] at hhead
      exact absurd hhead (by simp)
  · intro h x hx
    exact h x ((List.dropWhile_suffix p).subset hx)

theorem Strings.trimSpace_eq_empty_iff (s : String) :
    Strings.TrimSpace s = "" ↔ ∀ c ∈ s.data, Strings.isSpace c = true := by
  unfold Strings.TrimSpace
  rw [String.ext_iff]
  show ((s.data.dropWhile Strings.isSpace).reverse.dropWhile Strings.isSpace).reverse = [] ↔ _
  rw [List.reverse_eq_nil_iff, List.dropWhile_eq_nil_iff]
  constructor
  · intro h
    exact (Strings.dropWhile_all_iff _ _).mp (fun x hx => h x (List.mem_reverse.mpr hx))
  · intro h x hx
    exact (Strings.dropWhile_all_iff _ _).mpr h x (List.mem_reverse.mp hx)

theorem Strings.containsList_iff_infix (s substr : List Char) :
    Strings.containsList s substr = true ↔ substr <:+: s := by
  induction s with
  | nil =>
    cases substr <;> simp [Strings.containsList]
  | cons c t ih =>
    unfold Strings.containsList
    rw [Bool.or_eq_true, ih, List.isPrefixOf_iff_prefix, List.infix_cons_iff]

theorem Strings.contains_singleton_iff (s : String) (c : Char) :
    Strings.Contains s (String.singleton c) = true ↔ c ∈ s.data := by
  unfold Strings.Contains
  rw [Strings.containsList_iff_infix]
  show [c] <:+: s.data ↔ _
  constructor
  · intro h
    exact h.subset (List.mem_singleton_self c)
  · intro h
    obtain ⟨pre, suf, hps⟩ := List.append_of_mem h
    exact ⟨pre, suf, by simp [hps]⟩

theorem Strings.toLower_ascii_lower (u : Char → Char) (s : String)
    (hascii : s.data.all (fun c => decide (c.toNat < 128)) = true)
    (hlower : s.data.any (fun c => decide (65 ≤ c.toNat) && decide (c.toNat ≤ 90)) = false) :
    Strings.ToLower u s = s := by
  unfold Strings.ToLower
  rw [if_pos hascii, hlower]
  rfl

/-! ### Lemmas on `calcularDescuento` -/

theorem calcularDescuento_ok (u : Char → Char) (precio : ℚ) (categoria : String)
    (esMiembro : Bool) (h : 0 < precio) :
    calcularDescuento u precio categoria esMiembro =
      (precio * (1 - (tasaCategoria (Strings.ToLower u categoria) + bonoMiembro esMiembro)),
       (if Strings.ToLower u categoria = "premium" then "Descuento Premium 20%"
        else if Strings.ToLower u categoria = "regular" then "Descuento Regular 10%"
        else if Strings.ToLower u categoria = "basico" then "Descuento Básico 5%"
        else "Sin descuento") ++ (if esMiembro then " + Miembro 5%" else ""),
       none) := by
  have hp : ¬ precio ≤ 0 := not_le.mpr h
  unfold calcularDescuento tasaCategoria bonoMiembro
  rw [if_neg hp]
  by_cases h1 : Strings.ToLower u categoria = "premium"
  · cases esMiembro <;> simp [h1]
  · by_cases h2 : Strings.ToLower u categoria = "regular"
    · cases esMiembro <;> simp [h2]
    · by_cases h3 : Strings.ToLower u categoria = "basico"
      · cases esMiembro <;> simp [h3]
      · cases esMiembro
        · simp [h1, h2, h3]
        · simp [h1, h2, h3]

theorem toLower_premium (u : Char → Char) : Strings.ToLower u "premium" = "premium" :=
  Strings.toLower_ascii_lower u "premium" (by decide) (by decide)

theorem calcularDescuento_cien_premium (u : Char → Char) :
    calcularDescuento u 100 "premium" true =
      (75, "Descuento Premium 20% + Miembro 5%", none) := by
  rw [calcularDescuento_ok u 100 "premium" true (by norm_num), toLower_premium]
  have hr : ("Descuento Premium 20%" ++ " + Miembro 5%" : String) =
      "Descuento Premium 20% + Miembro 5%" := by decide
  simp only [tasaCategoria, bonoMiembro, if_true, hr]
  norm_num

/-! ### Lemmas on `procesarDatos` -/

theorem aplicarFuncion_append (fn : Int → Int) (suf pre : List Int) :
    aplicarFuncion fn suf.length pre.length (pre ++ suf) = some (pre ++ suf.map fn) := by
  induction suf generalizing pre with
  | nil => simp [aplicarFuncion]
  | cons x t ih =>
    have hget : (pre ++ x :: t)[pre.length]? = some x := by
      rw [List.getElem?_append_right (le_refl _)]
      simp
    have hset : escribir (pre ++ x :: t) pre.length (fn x) = some ((pre ++ [fn x]) ++ t) := by
      unfold escribir
      simp
    have hrec := ih (pre ++ [fn x])
    simp only [List.length_append, List.length_singleton] at hrec
    simp only [List.length_cons, aplicarFuncion, hget, hset, hrec]
    simp

theorem aplicarFuncion_all (fn : Int → Int) (xs : List Int) :
    aplicarFuncion fn xs.length 0 xs = some (xs.map fn) := by
  simpa using aplicarFuncion_append fn xs []

theorem copySlice_make (datos : List Int) :
    copySlice (makeSlice datos.length) datos = datos := by
  simp [copySlice, makeSlice]

theorem foldlM_procesarEtapa (funciones : List (Int → Int)) (m : Mem) :
    funciones.foldlM procesarEtapa m =
      some { datos := m.datos, resultado := m.resultado.map (aplicarEnOrden funciones) } := by
  induction funciones generalizing m with
  | nil =>
    have hid : aplicarEnOrden [] = id := by
      funext x
      rfl
    simp [hid]
  | cons f fs ih =>
    have hcomp : aplicarEnOrden (f :: fs) = aplicarEnOrden fs ∘ f := by
      funext x
      rfl
    simp only [List.foldlM_cons, procesarEtapa, aplicarFuncion_all, Option.map_some',
      Option.some_bind, Option.bind_eq_bind, ih, hcomp, List.map_map]

theorem procesarDatosMem_eq (datos : List Int) (funciones : List (Int → Int)) :
    procesarDatosMem datos funciones =
      some { datos := datos, resultado := datos.map (aplicarEnOrden funciones) } := by
  unfold procesarDatosMem
  rw [foldlM_procesarEtapa, copySlice_make]

theorem procesarDatos_eq_map (datos : List Int) (funciones : List (Int → Int)) :
    procesarDatos datos funciones = some (datos.map (aplicarEnOrden funciones)) := by
  unfold procesarDatos
  rw [procesarDatosMem_eq]
  rfl

/-! ### Lemmas on `concatenar` -/

theorem Strings.foldl_sep_append (sep a : String) (resto : List String) (b : String) :
    resto.foldl (fun b s => (b ++ sep) ++ s) (a ++ b) =
      a ++ resto.foldl (fun b s => (b ++ sep) ++ s) b := by
  induction resto generalizing b with
  | nil => rfl
  | cons x t ih =>
    simp only [List.foldl_cons]
    have hx : ((a ++ b) ++ sep) ++ x = a ++ ((b ++ sep) ++ x) := by
      rw [String.append_assoc, String.append_assoc, String.append_assoc]
    rw [hx, ih]

theorem Strings.join_cons_cons (sep x y : String) (resto : List String) :
    Strings.Join (x :: y :: resto) sep = (x ++ sep) ++ Strings.Join (y :: resto) sep := by
  have hy : Strings.Join (y :: resto) sep =
      resto.foldl (fun b s => (b ++ sep) ++ s) y := by
    cases resto <;> rfl
  rw [hy]
  show resto.foldl (fun b s => (b ++ sep) ++ s) ((x ++ sep) ++ y) = _
  exact Strings.foldl_sep_append sep (x ++ sep) resto y

theorem Strings.foldl_append_eq (l : List String) (acc : String) :
    l.foldl (fun r s => r ++ s) acc = acc ++ String.join l := by
  unfold String.join
  induction l generalizing acc with
  | nil => simp
  | cons x t ih =>
    simp only [List.foldl_cons]
    rw [ih (acc ++ x), ih ("" ++ x), String.empty_append, String.append_assoc]

theorem Strings.string_join_cons (x : String) (l : List String) :
    String.join (x :: l) = x ++ String.join l := by
  have h := Strings.foldl_append_eq l ("" ++ x)
  rw [String.empty_append] at h
  rw [← h]
  rfl

theorem Strings.join_eq_intersperse (sep : String) (elems : List String) :
    Strings.Join elems sep = String.join (elems.intersperse sep) := by
  induction elems with
  | nil => rfl
  | cons x t ih =>
    cases t with
    | nil =>
      show x = String.join [x]
      rw [Strings.string_join_cons]
      show x = x ++ ""
      rw [String.append_empty]
    | cons y r =>
      rw [Strings.join_cons_cons, ih]
      show _ = String.join (x :: sep :: List.intersperse sep (y :: r))
      rw [Strings.string_join_cons, Strings.string_join_cons, String.append_assoc]

/-! ### Lemmas on `calcularEstadisticas` -/

theorem operar_nil (u : Char → Char) (operacion : String) :
    operar u operacion [] = some (0, some errSinNumeros) := by
  unfold operar
  simp

/-! ### Lemmas on `construirSQL` -/

theorem construirSQL_cola (query1 : String) (condiciones : List String) :
    (if condiciones.length > 0 then
        (query1 ++ " WHERE ") ++ Strings.Join condiciones " AND "
      else query1) ++ ";" = query1 ++ clausulaWhere condiciones ++ ";" := by
  unfold clausulaWhere
  cases condiciones with
  | nil =>
    simp only [List.length_nil, gt_iff_lt, lt_self_iff_false, if_false, if_true]
    rw [String.append_empty]
  | cons c t =>
    have hlen : (c :: t).length > 0 := by simp
    have hne : ¬ (c :: t) = [] := by simp
    rw [if_pos hlen, if_neg hne, Strings.join_eq_intersperse, String.append_assoc query1]

theorem construirSQL_select (uu : Char → Char) (tabla operacion : String)
    (condiciones : List String) (h : Strings.ToUpper uu operacion = "SELECT") :
    construirSQL uu tabla operacion condiciones =
      "SELECT * FROM " ++ tabla ++ clausulaWhere condiciones ++ ";" := by
  unfold construirSQL
  simp only [h, if_true, String.empty_append]
  exact construirSQL_cola _ condiciones

theorem construirSQL_delete (uu : Char → Char) (tabla operacion : String)
    (condiciones : List String) (h : Strings.ToUpper uu operacion = "DELETE") :
    construirSQL uu tabla operacion condiciones =
      "DELETE FROM " ++ tabla ++ clausulaWhere condiciones ++ ";" := by
  have h1 : ¬ ("DELETE" : String) = "SELECT" := by decide
  unfold construirSQL
  simp only [h, h1, if_true, if_false, String.empty_append]
  exact construirSQL_cola _ condiciones

theorem construirSQL_update (uu : Char → Char) (tabla operacion : String)
    (condiciones : List String) (h : Strings.ToUpper uu operacion = "UPDATE") :
    construirSQL uu tabla operacion condiciones =
      "UPDATE " ++ tabla ++ " SET " ++ clausulaWhere condiciones ++ ";" := by
  have h1 : ¬ ("UPDATE" : String) = "SELECT" := by decide
  have h2 : ¬ ("UPDATE" : String) = "DELETE" := by decide
  unfold construirSQL
  simp only [h, h1, h2, if_true, if_false, String.empty_append]
  exact construirSQL_cola _ condiciones

theorem construirSQL_otra (uu : Char → Char) (tabla operacion : String)
    (condiciones : List String)
    (h : Strings.ToUpper uu operacion ∉ ["SELECT", "DELETE", "UPDATE"]) :
    construirSQL uu tabla operacion condiciones = "Operación no soportada" := by
  simp only [List.mem_cons, List.mem_singleton, List.not_mem_nil, or_false, not_or] at h
  unfold construirSQL
  simp only [h.1, h.2.1, h.2.2, if_false]

theorem clausulaWhere_eq_empty_iff (condiciones : List String) :
    clausulaWhere condiciones = "" ↔ condiciones = [] := by
  unfold clausulaWhere
  constructor
  · intro h
    by_contra hne
    rw [if_neg hne] at h
    have hlen := congrArg String.length h
    rw [String.length_append] at hlen
    have h7 : (" WHERE " : String).length = 7 := by decide
    have h0 : ("" : String).length = 0 := by decide
    omega
  · intro h
    rw [if_pos h]

/-! ### Lemmas on `operacionConRecursos` and `validarUsuario` -/

theorem operacionConRecursos_error :
    operacionConRecursos "error.txt" =
      ([lineaAbrir "error.txt", lineaProcesar "error.txt", lineaCerrar "error.txt"],
        some errProcesar) := by
  simp [operacionConRecursos, imprimir, diferir, retornar]

theorem operacionConRecursos_exito (archivo : String) (h : archivo ≠ "error.txt") :
    operacionConRecursos archivo =
      ([lineaAbrir archivo, lineaProcesar archivo, lineaExito archivo, lineaCerrar archivo],
        none) := by
  simp [operacionConRecursos, imprimir, diferir, retornar, h]

theorem validarUsuario_nombre (nombre email : String) (edad : Int)
    (h : Strings.TrimSpace nombre = "") :
    validarUsuario nombre email edad = some errNombreVacio := by
  unfold validarUsuario
  rw [if_pos h]

theorem validarUsuario_email (nombre email : String) (edad : Int)
    (hn : Strings.TrimSpace nombre ≠ "")
    (he : Strings.Contains email "@" = false ∨ Strings.Contains email "." = false) :
    validarUsuario nombre email edad = some errEmailInvalido := by
  unfold validarUsuario
  rw [if_neg hn]
  rcases he with he | he <;> simp [he]

theorem validarUsuario_resto (nombre email : String) (edad : Int)
    (hn : Strings.TrimSpace nombre ≠ "") (ha : Strings.Contains email "@" = true)
    (hd : Strings.Contains email "." = true) :
    validarUsuario nombre email edad =
      if edad < 0 ∨ edad > 120 then some errEdadRango else none := by
  unfold validarUsuario
  rw [if_neg hn]
  simp [ha, hd]

/-! ### Lemmas on `validarCampos` -/

theorem foldl_camposVacios (campos : List String) (vacios : List String) :
    campos.foldl
        (fun vacios campo =>
          if Strings.TrimSpace campo = "" then vacios ++ ["campo vacío"] else vacios) vacios =
      vacios ++ List.replicate
        (campos.countP (fun campo => decide (Strings.TrimSpace campo = ""))) "campo vacío" := by
  induction campos generalizing vacios with
  | nil => simp
  | cons c t ih =>
    simp only [List.foldl_cons]
    rw [ih]
    by_cases hc : Strings.TrimSpace c = ""
    · rw [if_pos hc, List.countP_cons_of_pos _ _ (by simpa using hc), List.replicate_succ',
        List.append_assoc]
      congr 1
      rw [← List.replicate_succ', List.replicate_succ]
      rfl
    · rw [if_neg hc, List.countP_cons_of_neg _ _ (by simpa using hc)]

theorem validarCampos_eq (requeridos : Bool) (campos : List String) :
    validarCampos requeridos campos =
      (decide (campos.countP (fun campo => decide (Strings.TrimSpace campo = "")) = 0),
        List.replicate
          (campos.countP (fun campo => decide (Strings.TrimSpace campo = ""))) "campo vacío") := by
  unfold validarCampos
  rw [foldl_camposVacios]
  simp only [List.nil_append, List.length_replicate]
  by_cases hz : campos.countP (fun campo => decide (Strings.TrimSpace campo = "")) = 0
  · cases requeridos <;> simp [hz]
  · have hpos : campos.countP (fun campo => decide (Strings.TrimSpace campo = "")) > 0 :=
      Nat.pos_of_ne_zero hz
    cases requeridos <;> simp [hz, hpos]

/-! ### Lemmas on the absence of panics and on composition -/

theorem aplicarEnOrden_append (fs gs : List (Int → Int)) (x : Int) :
    aplicarEnOrden (fs ++ gs) x = aplicarEnOrden gs (aplicarEnOrden fs x) := by
  induction fs generalizing x with
  | nil => rfl
  | cons f fs ih => exact ih (f x)

theorem f64_le_of_lt_false (a b : F64) (ha : a ≠ F64.nan) (hb : b ≠ F64.nan)
    (h : F64.lt a b = false) : F64.le b a = true := by
  cases a with
  | nan => exact absurd rfl ha
  | num sa ma hma =>
    cases b with
    | nan => exact absurd rfl hb
    | num sb mb hmb =>
      simp only [F64.lt, decide_eq_false_iff_not, not_lt] at h
      simp only [F64.le, decide_eq_true_eq]
      exact h

theorem f64_le_of_lt (a b : F64) (h : F64.lt a b = true) : F64.le a b = true := by
  cases a with
  | nan => simp [F64.lt] at h
  | num sa ma hma =>
    cases b with
    | nan => simp [F64.lt] at h
    | num sb mb hmb =>
      simp only [F64.lt, decide_eq_true_eq] at h
      simp only [F64.le, decide_eq_true_eq]
      exact le_of_lt h

theorem f64_le_false_of_lt (a b : F64) (h : F64.lt a b = true) : F64.le b a = false := by
  cases a with
  | nan => simp [F64.lt] at h
  | num sa ma hma =>
    cases b with
    | nan => simp [F64.lt] at h
    | num sb mb hmb =>
      simp only [F64.lt, decide_eq_true_eq] at h
      simp only [F64.le, decide_eq_false_iff_not, not_le]
      exact h

theorem f64_le_trans (a b c : F64) (h1 : F64.le a b = true) (h2 : F64.le b c = true) :
    F64.le a c = true := by
  cases a with
  | nan => simp [F64.le] at h1
  | num sa ma hma =>
    cases b with
    | nan => simp [F64.le] at h1
    | num sb mb hmb =>
      cases c with
      | nan => simp [F64.le] at h2
      | num sc mc hmc =>
        simp only [F64.le, decide_eq_true_eq] at h1 h2 ⊢
        exact le_trans h1 h2

theorem f64_le_self (a : F64) (ha : a ≠ F64.nan) : F64.le a a = true := by
  cases a with
  | nan => exact absurd rfl ha
  | num sa ma hma => simp [F64.le]

theorem f64_eq_cero_iff (b : F64) :
    F64.eq b F64.cero = true ↔ b = F64.deBits 0 ∨ b = F64.deBits 0x8000000000000000 := by
  cases b with
  | nan =>
    simp only [F64.eq]
    constructor
    · intro h
      exact absurd h (by decide)
    · intro h
      rcases h with h | h
      · exact absurd h (by decide)
      · exact absurd h (by decide)
  | num sb mb hmb =>
    have h0 : F64.cero = F64.num false 0 (Nat.zero_le _) := by decide
    have h1 : F64.deBits 0 = F64.num false 0 (Nat.zero_le _) := by decide
    have h2 : F64.deBits 0x8000000000000000 = F64.num true 0 (Nat.zero_le _) := by decide
    rw [h0, h1, h2]
    simp only [F64.eq, F64.clave, decide_eq_true_eq, F64.num.injEq]
    cases sb <;> simp

/-! ### Lemmas on the binary64 embeddings -/

theorem flotante_calcularDescuento_ok (u : Char → Char) (precio : F64) (categoria : String)
    (esMiembro : Bool) (h : F64.le precio F64.cero = false) :
    Flotante.calcularDescuento u precio categoria esMiembro =
      (F64.mul precio (F64.sub (F64.deInt 1)
          (if esMiembro then
            F64.add (tasaCategoria64 (Strings.ToLower u categoria)) (F64.lit 5 100)
          else tasaCategoria64 (Strings.ToLower u categoria))),
       (if Strings.ToLower u categoria = "premium" then "Descuento Premium 20%"
        else if Strings.ToLower u categoria = "regular" then "Descuento Regular 10%"
        else if Strings.ToLower u categoria = "basico" then "Descuento Básico 5%"
        else "Sin descuento") ++ (if esMiembro then " + Miembro 5%" else ""),
       none) := by
  unfold Flotante.calcularDescuento tasaCategoria64
  rw [h]
  by_cases h1 : Strings.ToLower u categoria = "premium"
  · cases esMiembro <;> simp [h1]
  · by_cases h2 : Strings.ToLower u categoria = "regular"
    · cases esMiembro <;> simp [h2]
    · by_cases h3 : Strings.ToLower u categoria = "basico"
      · cases esMiembro <;> simp [h3]
      · cases esMiembro <;> simp [h1, h2, h3]

set_option maxRecDepth 10000 in
set_option exponentiation.threshold 20000 in
theorem tasaCategoria64_add_cero (clave : String) :
    F64.add (tasaCategoria64 clave) F64.cero = tasaCategoria64 clave := by
  unfold tasaCategoria64
  split_ifs
  · decide
  · decide
  · decide
  · decide

theorem flotante_foldl_minimo (t : List F64) (a : F64) (ht : ∀ y ∈ t, y ≠ F64.nan)
    (ha : a ≠ F64.nan) :
    F64.le (t.foldl (fun resultado num => if F64.lt num resultado then num else resultado) a)
        a = true ∧
    (∀ y ∈ t,
      F64.le (t.foldl (fun resultado num => if F64.lt num resultado then num else resultado) a)
        y = true) ∧
    (t.foldl (fun resultado num => if F64.lt num resultado then num else resultado) a = a ∨
      t.foldl (fun resultado num => if F64.lt num resultado then num else resultado) a ∈ t) := by
  induction t generalizing a with
  | nil => simp [f64_le_self a ha]
  | cons y t ih =>
    have hy : y ≠ F64.nan := ht y (List.mem_cons_self y t)
    have htt : ∀ z ∈ t, z ≠ F64.nan := fun z hz => ht z (List.mem_cons_of_mem y hz)
    have hstep : F64.le (if F64.lt y a then y else a) a = true ∧
        F64.le (if F64.lt y a then y else a) y = true ∧
        ((if F64.lt y a then y else a) = a ∨ (if F64.lt y a then y else a) = y) ∧
        (if F64.lt y a then y else a) ≠ F64.nan := by
      cases hlt : F64.lt y a
      · simp only [Bool.false_eq_true, if_false]
        exact ⟨f64_le_self a ha, f64_le_of_lt_false y a hy ha hlt, Or.inl trivial, ha⟩
      · simp only [if_true]
        exact ⟨f64_le_of_lt y a hlt, f64_le_self y hy, Or.inr trivial, hy⟩
    obtain ⟨h1, h2, h3⟩ := ih (if F64.lt y a then y else a) htt hstep.2.2.2
    simp only [List.foldl_cons, List.mem_cons]
    refine ⟨f64_le_trans _ _ _ h1 hstep.1, ?_, ?_⟩
    · intro z hz
      rcases hz with hz | hz
      · rw [hz]
        exact f64_le_trans _ _ _ h1 hstep.2.1
      · exact h2 z hz
    · rcases h3 with h | h
      · rcases hstep.2.2.1 with hq | hq
        · exact Or.inl (h.trans hq)
        · exact Or.inr (Or.inl (h.trans hq))
      · exact Or.inr (Or.inr h)

theorem flotante_foldl_maximo (t : List F64) (a : F64) (ht : ∀ y ∈ t, y ≠ F64.nan)
    (ha : a ≠ F64.nan) :
    F64.le a
        (t.foldl (fun resultado num => if F64.gt num resultado then num else resultado) a) =
      true ∧
    (∀ y ∈ t,
      F64.le y
        (t.foldl (fun resultado num => if F64.gt num resultado then num else resultado) a) =
      true) ∧
    (t.foldl (fun resultado num => if F64.gt num resultado then num else resultado) a = a ∨
      t.foldl (fun resultado num => if F64.gt num resultado then num else resultado) a ∈ t) := by
  induction t generalizing a with
  | nil => simp [f64_le_self a ha]
  | cons y t ih =>
    have hy : y ≠ F64.nan := ht y (List.mem_cons_self y t)
    have htt : ∀ z ∈ t, z ≠ F64.nan := fun z hz => ht z (List.mem_cons_of_mem y hz)
    have hstep : F64.le a (if F64.gt y a then y else a) = true ∧
        F64.le y (if F64.gt y a then y else a) = true ∧
        ((if F64.gt y a then y else a) = a ∨ (if F64.gt y a then y else a) = y) ∧
        (if F64.gt y a then y else a) ≠ F64.nan := by
      cases hgt : F64.gt y a
      · simp only [Bool.false_eq_true, if_false]
        exact ⟨f64_le_self a ha, f64_le_of_lt_false a y ha hy hgt, Or.inl trivial, ha⟩
      · simp only [if_true]
        exact ⟨f64_le_of_lt a y hgt, f64_le_self y hy, Or.inr trivial, hy⟩
    obtain ⟨h1, h2, h3⟩ := ih (if F64.gt y a then y else a) htt hstep.2.2.2
    simp only [List.foldl_cons, List.mem_cons]
    refine ⟨f64_le_trans _ _ _ hstep.1 h1, ?_, ?_⟩
    · intro z hz
      rcases hz with hz | hz
      · rw [hz]
        exact f64_le_trans _ _ _ hstep.2.1 h1
      · exact h2 z hz
    · rcases h3 with h | h
      · rcases hstep.2.2.1 with hq | hq
        · exact Or.inl (h.trans hq)
        · exact Or.inr (Or.inl (h.trans hq))
      · exact Or.inr (Or.inr h)

theorem flotante_estadisticasPaso_proyecciones (ys : List F64) (acc : F64 × F64 × F64) :
    (ys.foldl Flotante.estadisticasPaso acc).1 =
      ys.foldl (fun resultado num => if F64.lt num resultado then num else resultado) acc.1 ∧
    (ys.foldl Flotante.estadisticasPaso acc).2.1 =
      ys.foldl (fun resultado num => if F64.gt num resultado then num else resultado)
        acc.2.1 ∧
    (ys.foldl Flotante.estadisticasPaso acc).2.2 = ys.foldl F64.add acc.2.2 := by
  induction ys generalizing acc with
  | nil => exact ⟨rfl, rfl, rfl⟩
  | cons y t ih =>
    simp only [List.foldl_cons]
    exact ih (Flotante.estadisticasPaso acc y)

theorem flotante_calcularEstadisticas_cons (x : F64) (t : List F64) :
    Flotante.calcularEstadisticas (x :: t) =
      some ⟨((x :: t).foldl Flotante.estadisticasPaso (x, x, F64.cero)).1,
        ((x :: t).foldl Flotante.estadisticasPaso (x, x, F64.cero)).2.1,
        F64.div ((x :: t).foldl Flotante.estadisticasPaso (x, x, F64.cero)).2.2
          (F64.deInt (x :: t).length),
        (x :: t).length⟩ := by
  have hn : ¬ (x :: t).length = 0 := by simp
  have h0 : (x :: t)[0]? = some x := by simp
  unfold Flotante.calcularEstadisticas
  rw [if_neg hn]
  simp only [h0]

theorem flotante_operar_cons (u : Char → Char) (operacion : String) (x : F64) (t : List F64) :
    Flotante.operar u operacion (x :: t) =
      if Strings.ToLower u operacion = "suma" then
        some (t.foldl (fun resultado num => F64.add resultado num) x, none)
      else if Strings.ToLower u operacion = "multiplicacion" then
        some (t.foldl (fun resultado num => F64.mul resultado num) x, none)
      else if Strings.ToLower u operacion = "maximo" then
        some (t.foldl (fun resultado num => if F64.gt num resultado then num else resultado) x,
          none)
      else if Strings.ToLower u operacion = "minimo" then
        some (t.foldl (fun resultado num => if F64.lt num resultado then num else resultado) x,
          none)
      else some (F64.cero, some (errNoSoportada operacion)) := by
  have hreb : Flotante.rebanarDesde (x :: t) 1 = some t := by
    unfold Flotante.rebanarDesde
    simp
  have hlen : ¬ (x :: t).length = 0 := by simp
  have h0 : (x :: t)[0]? = some x := by simp
  unfold Flotante.operar
  rw [if_neg hlen]
  simp only [h0, hreb, Option.map_some']

theorem flotante_operar_nil (u : Char → Char) (operacion : String) :
    Flotante.operar u operacion [] = some (F64.cero, some errSinNumeros) := by
  unfold Flotante.operar
  simp

theorem flotante_operar_total (u : Char → Char) (operacion : String) (xs : List F64) :
    ∃ r : F64 × Option String, Flotante.operar u operacion xs = some r := by
  cases xs with
  | nil => exact ⟨_, flotante_operar_nil u operacion⟩
  | cons x t =>
    rw [flotante_operar_cons]
    split_ifs <;> exact ⟨_, rfl⟩

theorem flotante_operar_suma (u : Char → Char) (operacion : String) (x : F64) (t : List F64)
    (h : Strings.ToLower u operacion = "suma") :
    Flotante.operar u operacion (x :: t) = some (sumaIzquierda (x :: t), none) := by
  rw [flotante_operar_cons, if_pos h]
  rfl

theorem flotante_operar_multiplicacion (u : Char → Char) (operacion : String) (x : F64)
    (t : List F64) (h : Strings.ToLower u operacion = "multiplicacion") :
    Flotante.operar u operacion (x :: t) = some (productoIzquierda (x :: t), none) := by
  have h1 : ¬ Strings.ToLower u operacion = "suma" := by
    rw [h]
    decide
  rw [flotante_operar_cons, if_neg h1, if_pos h]
  rfl

theorem flotante_operar_maximo (u : Char → Char) (operacion : String) (x : F64) (t : List F64)
    (h : Strings.ToLower u operacion = "maximo") :
    Flotante.operar u operacion (x :: t) =
      some (t.foldl (fun resultado num => if F64.gt num resultado then num else resultado) x,
        none) := by
  have h1 : ¬ Strings.ToLower u operacion = "suma" := by
    rw [h]
    decide
  have h2 : ¬ Strings.ToLower u operacion = "multiplicacion" := by
    rw [h]
    decide
  rw [flotante_operar_cons, if_neg h1, if_neg h2, if_pos h]

theorem flotante_operar_minimo (u : Char → Char) (operacion : String) (x : F64) (t : List F64)
    (h : Strings.ToLower u operacion = "minimo") :
    Flotante.operar u operacion (x :: t) =
      some (t.foldl (fun resultado num => if F64.lt num resultado then num else resultado) x,
        none) := by
  have h1 : ¬ Strings.ToLower u operacion = "suma" := by
    rw [h]
    decide
  have h2 : ¬ Strings.ToLower u operacion = "multiplicacion" := by
    rw [h]
    decide
  have h3 : ¬ Strings.ToLower u operacion = "maximo" := by
    rw [h]
    decide
  rw [flotante_operar_cons, if_neg h1, if_neg h2, if_neg h3, if_pos h]

theorem flotante_operar_otra (u : Char → Char) (operacion : String) (x : F64) (t : List F64)
    (h : Strings.ToLower u operacion ∉ ["suma", "multiplicacion", "maximo", "minimo"]) :
    Flotante.operar u operacion (x :: t) = some (F64.cero, some (errNoSoportada operacion)) := by
  simp only [List.mem_cons, List.mem_singleton, List.not_mem_nil, or_false, not_or] at h
  rw [flotante_operar_cons, if_neg h.1, if_neg h.2.1, if_neg h.2.2.1, if_neg h.2.2.2]

/-! ### Lemmas on `procesarDatos` with arbitrary function values -/

theorem aplicarFuncionGo_pura (g : Int → Int) (k i : Nat) (resultado : List Int) :
    aplicarFuncionGo (FuncGo.pura g) k i resultado = aplicarFuncion g k i resultado := by
  induction k generalizing i resultado with
  | zero => rfl
  | succ k ih =>
    unfold aplicarFuncionGo aplicarFuncion
    cases hget : resultado[i]? with
    | none => rfl
    | some valor =>
      simp only [llamar, FuncGo.pura]
      cases hesc : escribir resultado i (g valor) with
      | none => rfl
      | some resultado1 => exact ih (i + 1) resultado1

theorem foldlM_aplicarFuncionGo_pura (fs : List (Int → Int)) (resultado : List Int) :
    (fs.map FuncGo.pura).foldlM
        (fun resultado fn => aplicarFuncionGo fn resultado.length 0 resultado) resultado =
      some (resultado.map (aplicarEnOrden fs)) := by
  induction fs generalizing resultado with
  | nil =>
    have hid : aplicarEnOrden [] = id := by
      funext x
      rfl
    simp [hid]
  | cons f fs ih =>
    have hcomp : aplicarEnOrden (f :: fs) = aplicarEnOrden fs ∘ f := by
      funext x
      rfl
    simp only [List.map_cons, List.foldlM_cons, aplicarFuncionGo_pura, aplicarFuncion_all,
      Option.some_bind, Option.bind_eq_bind, ih, hcomp, List.map_map]

theorem procesarDatosGo_pura (datos : List Int) (fs : List (Int → Int)) :
    procesarDatosGo datos (fs.map FuncGo.pura) = some (datos.map (aplicarEnOrden fs)) := by
  unfold procesarDatosGo
  rw [foldlM_aplicarFuncionGo_pura, copySlice_make]

theorem procesarDatosGo_vacio (fs : List FuncGo) : procesarDatosGo [] fs = some [] := by
  have hfold : ∀ gs : List FuncGo,
      gs.foldlM (fun resultado fn => aplicarFuncionGo fn resultado.length 0 resultado)
        ([] : List Int) = some [] := by
    intro gs
    induction gs with
    | nil => rfl
    | cons g gs ih =>
      simp only [List.foldlM_cons, List.length_nil, aplicarFuncionGo, Option.some_bind,
        Option.bind_eq_bind]
      exact ih
  unfold procesarDatosGo
  exact hfold fs

theorem flotante_calcularEstadisticasVerificado_eq (xs : List F64) :
    Flotante.calcularEstadisticasVerificado xs = Flotante.calcularEstadisticas xs := by
  cases xs with
  | nil => rfl
  | cons x t =>
    have hn : ¬ (x :: t).length = 0 := by simp
    have h0 : (x :: t)[0]? = some x := by simp
    have hdiv : ∀ s : F64, Flotante.dividirPorLongitud s (x :: t).length =
        some (F64.div s (F64.deInt (x :: t).length)) := by
      intro s
      unfold Flotante.dividirPorLongitud
      rw [if_neg hn]
    unfold Flotante.calcularEstadisticasVerificado Flotante.calcularEstadisticas
    rw [if_neg hn, if_neg hn]
    simp only [h0, hdiv]

theorem flotante_calcularEstadisticas_total (xs : List F64) :
    ∃ e : Flotante.Estadisticas, Flotante.calcularEstadisticas xs = some e := by
  cases xs with
  | nil => exact ⟨_, rfl⟩
  | cons x t => exact ⟨_, flotante_calcularEstadisticas_cons x t⟩

set_option maxRecDepth 10000 in
set_option exponentiation.threshold 20000 in
/-- On the demonstration input `(100.0, "premium", true)` the binary64 embedding returns
exactly `75`, as the embedding over the rationals does: `0.20 + 0.05` rounds to `0.25`. -/
theorem flotante_calcularDescuento_cien_premium (u : Char → Char) :
    Flotante.calcularDescuento u (F64.deInt 100) "premium" true =
      (F64.deInt 75, "Descuento Premium 20% + Miembro 5%", none) := by
  have hle : F64.le (F64.deInt 100) F64.cero = false := by decide
  have hr : ("Descuento Premium 20%" ++ " + Miembro 5%" : String) =
      "Descuento Premium 20% + Miembro 5%" := by decide
  have hv : F64.mul (F64.deInt 100)
      (F64.sub (F64.deInt 1) (F64.add (F64.lit 20 100) (F64.lit 5 100))) = F64.deInt 75 := by
    decide
  rw [flotante_calcularDescuento_ok u (F64.deInt 100) "premium" true hle, toLower_premium]
  simp only [tasaCategoria64, if_true, hr, hv]

/-! ## Claims -/

set_option maxRecDepth 10000 in
set_option exponentiation.threshold 20000 in
/-- C1: for every `a` and every `b` that is not zero (`b == 0` is false), `dividir(a, b)`
returns the quotient `a / b`, Go's float64 division, with no error;
for every `a` and every zero `b` (`+0` or `-0`) it returns the value `0` and the
division-by-zero error; so `dividir` fails if and only if `b == 0`.  The two calls of `main`
give `10 / 3 = 0x400AAAAAAAAAAAAB` without error and the error on `10 / 0`. -/
theorem dividir_contract :
    (∀ a b : F64, F64.eq b F64.cero = false →
      Flotante.dividir a b = (F64.div a b, none)) ∧
    (∀ a b : F64, F64.eq b F64.cero = true →
      Flotante.dividir a b = (F64.cero, some errDivisionPorCero)) ∧
    (∀ a b : F64, (Flotante.dividir a b).2 ≠ none ↔ F64.eq b F64.cero = true) ∧
    (∀ b : F64, F64.eq b F64.cero = true ↔
      b = F64.deBits 0 ∨ b = F64.deBits 0x8000000000000000) ∧
    Flotante.dividir (F64.deInt 10) (F64.deInt 3) =
      (F64.deBits 0x400AAAAAAAAAAAAB, none) ∧
    Flotante.dividir (F64.deInt 10) (F64.deInt 0) = (F64.cero, some errDivisionPorCero) := by
  refine ⟨?_, ?_, ?_, f64_eq_cero_iff, by decide, by decide⟩
  · intro a b hb
    unfold Flotante.dividir
    rw [hb]
    rfl
  · intro a b hb
    unfold Flotante.dividir
    rw [hb]
    rfl
  · intro a b
    unfold Flotante.dividir
    cases hb : F64.eq b F64.cero <;> simp

set_option maxRecDepth 10000 in
set_option exponentiation.threshold 20000 in
theorem dividir_contract_witness :
    Flotante.dividir (F64.deInt 10) (F64.deInt 4) = (F64.div (F64.deInt 10) (F64.deInt 4), none) ∧
    F64.div (F64.deInt 10) (F64.deInt 4) = F64.lit 25 10 ∧
    Flotante.dividir (F64.deInt 1) (F64.deBits 0x8000000000000000) =
      (F64.cero, some errDivisionPorCero) :=
  ⟨dividir_contract.1 (F64.deInt 10) (F64.deInt 4) (by decide), by decide,
   dividir_contract.2.1 (F64.deInt 1) (F64.deBits 0x8000000000000000) (by decide)⟩

/-- C2: the variadic `sumar` returns `0` on the empty sequence and `x` on the one-element
sequence `[x]` for every `int` value `x`; in general it returns the sum of its arguments
in Go's `int` arithmetic, that is the exact sum reduced into the 64-bit range, which is
the exact sum itself whenever that sum is an `int` value.  The three calls of the
demonstration give `0`, `5` and `15`. -/
theorem sumar_sum :
    sumar [] = 0 ∧
    (∀ x : Int, esInt x → sumar [x] = x) ∧
    (∀ xs : List Int, sumar xs = wrapInt xs.sum) ∧
    (∀ xs : List Int, esInt xs.sum → sumar xs = xs.sum) ∧
    sumar [5] = 5 ∧ sumar [1, 2, 3, 4, 5] = 15 := by
  refine ⟨rfl, ?_, sumar_eq_wrap_sum, ?_, ?_, ?_⟩
  · intro x hx
    rw [sumar_eq_wrap_sum]
    simpa using wrapInt_of_esInt x hx
  · intro xs hxs
    rw [sumar_eq_wrap_sum, wrapInt_of_esInt _ hxs]
  · rw [sumar_eq_wrap_sum]; decide
  · rw [sumar_eq_wrap_sum]; decide

theorem sumar_sum_witness :
    sumar [10, 20, 30, 40, 50] = 150 ∧ sumar [-7] = -7 :=
  ⟨by simpa using sumar_sum.2.2.2.1 [10, 20, 30, 40, 50] (by decide),
   sumar_sum.2.1 (-7) (by decide)⟩

/-- C3: the variadic `sumar` is associative and commutative over finite sequences, under
Go's wrap-around `int` arithmetic: `sumar(xs ++ ys)` is the Go sum `sumar(xs) + sumar(ys)`
for every two sequences, and `sumar(ps) = sumar(xs)` for every permutation `ps` of `xs`. -/
theorem sumar_assoc_comm :
    (∀ xs ys : List Int, sumar (xs ++ ys) = addInt (sumar xs) (sumar ys)) ∧
    (∀ xs ps : List Int, ps.Perm xs → sumar ps = sumar xs) := by
  constructor
  · intro xs ys
    unfold addInt
    rw [sumar_eq_wrap_sum, sumar_eq_wrap_sum, sumar_eq_wrap_sum, List.sum_append,
      wrapInt_add_left, wrapInt_add_right]
  · intro xs ps h
    rw [sumar_eq_wrap_sum, sumar_eq_wrap_sum, h.sum_eq]

theorem sumar_assoc_comm_witness :
    sumar [3, 1, 2] = sumar [1, 2, 3] ∧
    sumar ([9223372036854775807] ++ [1]) = addInt (sumar [9223372036854775807]) (sumar [1]) :=
  ⟨sumar_assoc_comm.2 [1, 2, 3] [3, 1, 2] (by decide),
   sumar_assoc_comm.1 [9223372036854775807] [1]⟩

/-- C4 (as the code behaves): `calcularDescuento(100.0, "premium", true)` returns, without
error, the final price `75` and the reason `"Descuento Premium 20% + Miembro 5%"`. -/
theorem calcularDescuento_premium_miembro :
    ∀ u : Char → Char, calcularDescuento u 100 "premium" true =
      (75, "Descuento Premium 20% + Miembro 5%", none) :=
  calcularDescuento_cien_premium

/-- C4 (as stated) fails: on price `100.0`, category `"premium"` and the membership flag
set, the returned price is not `76` and the returned reason is not
`"Premium 20% + Member 5%"`, whatever the Unicode case table. -/
theorem calcularDescuento_premium_miembro_no_76 :
    ¬ ∃ u : Char → Char, (calcularDescuento u 100 "premium" true).1 = 76 ∨
      (calcularDescuento u 100 "premium" true).2.1 = "Premium 20% + Member 5%" := by
  rintro ⟨u, h⟩
  rw [calcularDescuento_cien_premium u] at h
  rcases h with h | h
  · norm_num at h
  · exact absurd h (by decide)

set_option maxRecDepth 10000 in
set_option exponentiation.threshold 20000 in
/-- C5: for every price `> 0`, every category and every membership flag,
`calcularDescuento` returns, without error, the float64 value `price × (1 − d)` with
`d = base + bonus`, every operation being Go's float64 operation, where `base` is the
constant `0.20`, `0.10`, `0.05` for the lower-cased category `"premium"`, `"regular"`,
`"basico"` and `0` for any other, and `bonus` is `0.05` for a member and `0` otherwise; two
categories with the same lower-cased form give the same price, reason and error. -/
theorem calcularDescuento_formula (u : Char → Char) (precio : F64) (categoria : String)
    (esMiembro : Bool) (h : F64.gt precio F64.cero = true) :
    (Flotante.calcularDescuento u precio categoria esMiembro).1 =
        F64.mul precio (F64.sub (F64.deInt 1)
          (F64.add (tasaCategoria64 (Strings.ToLower u categoria))
            (bonoMiembro64 esMiembro))) ∧
    (Flotante.calcularDescuento u precio categoria esMiembro).2.2 = none ∧
    (∀ otra : String, Strings.ToLower u otra = Strings.ToLower u categoria →
      Flotante.calcularDescuento u precio otra esMiembro =
        Flotante.calcularDescuento u precio categoria esMiembro) := by
  have hle : F64.le precio F64.cero = false := f64_le_false_of_lt F64.cero precio h
  refine ⟨?_, ?_, ?_⟩
  · rw [flotante_calcularDescuento_ok u precio categoria esMiembro hle]
    cases esMiembro
    · simp only [bonoMiembro64, Bool.false_eq_true, if_false]
      rw [tasaCategoria64_add_cero]
    · simp only [bonoMiembro64, if_true]
  · rw [flotante_calcularDescuento_ok u precio categoria esMiembro hle]
  · intro otra hotra
    rw [flotante_calcularDescuento_ok u precio categoria esMiembro hle,
      flotante_calcularDescuento_ok u precio otra esMiembro hle, hotra]

set_option maxRecDepth 10000 in
set_option exponentiation.threshold 20000 in
theorem calcularDescuento_formula_witness :
    ((Flotante.calcularDescuento id (F64.deInt 50) "REGULAR" false).1 =
        F64.mul (F64.deInt 50) (F64.sub (F64.deInt 1)
          (F64.add (tasaCategoria64 (Strings.ToLower id "REGULAR")) (bonoMiembro64 false))) ∧
      (Flotante.calcularDescuento id (F64.deInt 50) "REGULAR" false).2.2 = none ∧
      (∀ otra : String, Strings.ToLower id otra = Strings.ToLower id "REGULAR" →
        Flotante.calcularDescuento id (F64.deInt 50) otra false =
          Flotante.calcularDescuento id (F64.deInt 50) "REGULAR" false)) ∧
    Flotante.calcularDescuento id (F64.deInt 50) "regular" false =
      (F64.deInt 45, "Descuento Regular 10%", none) ∧
    Flotante.calcularDescuento id (F64.deInt 25) "basico" true =
      (F64.lit 225 10, "Descuento Básico 5% + Miembro 5%", none) ∧
    Flotante.calcularDescuento id (F64.deInt 200) "vip" false =
      (F64.deInt 200, "Sin descuento", none) ∧
    Flotante.calcularDescuento id (F64.deInt 3) "premium" false =
      (F64.deBits 0x4003333333333334, "Descuento Premium 20%", none) :=
  ⟨calcularDescuento_formula id (F64.deInt 50) "REGULAR" false (by decide),
   by decide, by decide, by decide, by decide⟩

/-- C6: `calcularDescuento` fails if and only if `price ≤ 0`: for every category and
membership flag it returns the price `0`, the empty reason and an error when `price ≤ 0`,
and no error when `price > 0`, whatever the category. -/
theorem calcularDescuento_error_iff (u : Char → Char) (precio : ℚ) (categoria : String)
    (esMiembro : Bool) :
    (precio ≤ 0 → calcularDescuento u precio categoria esMiembro = (0, "", some errPrecio)) ∧
    (0 < precio → (calcularDescuento u precio categoria esMiembro).2.2 = none) ∧
    ((calcularDescuento u precio categoria esMiembro).2.2 ≠ none ↔ precio ≤ 0) := by
  refine ⟨?_, ?_, ?_⟩
  · intro hp
    unfold calcularDescuento
    rw [if_pos hp]
  · intro hp
    rw [calcularDescuento_ok u precio categoria esMiembro hp]
  · by_cases hp : precio ≤ 0
    · unfold calcularDescuento
      rw [if_pos hp]
      simp [hp]
    · rw [calcularDescuento_ok u precio categoria esMiembro (not_le.mp hp)]
      simp [hp]

theorem calcularDescuento_error_iff_witness :
    calcularDescuento id (-3) "premium" true = (0, "", some errPrecio) ∧
    calcularDescuento id 0 "" false = (0, "", some errPrecio) ∧
    (calcularDescuento id 200 "vip" false).2.2 = none ∧
    (calcularDescuento id 200 "" true).2.2 = none :=
  ⟨(calcularDescuento_error_iff id (-3) "premium" true).1 (by norm_num),
   (calcularDescuento_error_iff id 0 "" false).1 (le_refl 0),
   (calcularDescuento_error_iff id 200 "vip" false).2.1 (by norm_num),
   (calcularDescuento_error_iff id 200 "" true).2.1 (by norm_num)⟩

/-- C7: `validarUsuario(nombre, email, edad)` returns `nil` if and only if `nombre` is
non-empty after trimming white space (it has a character that is not white space), `email`
contains both `"@"` and `"."`, and `0 ≤ edad ≤ 120`.  The four calls of the specification
give the empty-name error, the invalid-email error, the age-range error and success. -/
theorem validarUsuario_ok_iff :
    (∀ (nombre email : String) (edad : Int),
      validarUsuario nombre email edad = none ↔
        (Strings.TrimSpace nombre ≠ "" ∧ Strings.Contains email "@" = true ∧
          Strings.Contains email "." = true ∧ 0 ≤ edad ∧ edad ≤ 120)) ∧
    (∀ (nombre email : String) (edad : Int),
      validarUsuario nombre email edad = none ↔
        ((∃ c ∈ nombre.data, Strings.isSpace c = false) ∧ '@' ∈ email.data ∧
          '.' ∈ email.data ∧ 0 ≤ edad ∧ edad ≤ 120)) ∧
    validarUsuario "" "a@b.com" 30 = some errNombreVacio ∧
    validarUsuario "Jane" "not-an-email" 30 = some errEmailInvalido ∧
    validarUsuario "Jane" "a@b.com" 150 = some errEdadRango ∧
    validarUsuario "Jane" "a@b.com" 30 = none := by
  have hmain : ∀ (nombre email : String) (edad : Int),
      validarUsuario nombre email edad = none ↔
        (Strings.TrimSpace nombre ≠ "" ∧ Strings.Contains email "@" = true ∧
          Strings.Contains email "." = true ∧ 0 ≤ edad ∧ edad ≤ 120) := by
    intro nombre email edad
    unfold validarUsuario
    by_cases hn : Strings.TrimSpace nombre = ""
    · simp [hn]
    · by_cases ha : Strings.Contains email "@" = true
      · by_cases hd : Strings.Contains email "." = true
        · by_cases he : edad < 0 ∨ edad > 120
          · rw [if_neg hn]
            simp only [ha, hd]
            rw [if_pos he]
            simp
            omega
          · rw [if_neg hn]
            simp only [ha, hd]
            rw [if_neg he]
            simp [hn]
            omega
        · simp [hn, ha, hd]
      · simp [hn, ha]
  refine ⟨hmain, ?_, ?_, ?_, ?_, ?_⟩
  · intro nombre email edad
    rw [hmain, ← Strings.contains_singleton_iff email '@',
      ← Strings.contains_singleton_iff email '.']
    have hne : Strings.TrimSpace nombre ≠ "" ↔ ∃ c ∈ nombre.data, Strings.isSpace c = false := by
      rw [Ne, Strings.trimSpace_eq_empty_iff]
      simp
    rw [hne]
    rfl
  · decide
  · decide
  · decide
  · decide

theorem validarUsuario_ok_iff_witness :
    validarUsuario "Juan Pérez" "juan@email.com" 30 = none :=
  (validarUsuario_ok_iff.1 "Juan Pérez" "juan@email.com" 30).mpr
    ⟨by decide, by decide, by decide, by decide, by decide⟩

/-- C8: for every input sequence and every ordered list of unary functions,
`procesarDatos(datos, f1, ..., fn)` returns (without a panic) a sequence of the length of
`datos` whose `i`-th element is `fn(...f2(f1(datos[i]))...)`; the slice `datos` holds the
same values afterwards; with no functions the result equals `datos`.  On `[1,2,3]` the
stage `duplicar` gives `[2,4,6]` and the stages `duplicar, sumarUno` give `[3,5,7]`. -/
theorem procesarDatos_spec :
    (∀ (datos : List Int) (funciones : List (Int → Int)),
      ∃ resultado : List Int, procesarDatos datos funciones = some resultado ∧
        resultado.length = datos.length ∧
        (∀ (i : Nat) (x : Int), datos[i]? = some x →
          resultado[i]? = some (aplicarEnOrden funciones x)) ∧
        (procesarDatosMem datos funciones).map Mem.datos = some datos) ∧
    (∀ datos : List Int, procesarDatos datos [] = some datos) ∧
    procesarDatos [1, 2, 3] [duplicar] = some [2, 4, 6] ∧
    procesarDatos [1, 2, 3] [duplicar, sumarUno] = some [3, 5, 7] := by
  refine ⟨?_, ?_, ?_, ?_⟩
  · intro datos funciones
    refine ⟨datos.map (aplicarEnOrden funciones), procesarDatos_eq_map datos funciones,
      List.length_map _ _, ?_, ?_⟩
    · intro i x hx
      rw [List.getElem?_map, hx]
      rfl
    · rw [procesarDatosMem_eq]
      rfl
  · intro datos
    rw [procesarDatos_eq_map]
    have hid : aplicarEnOrden [] = id := by
      funext x
      rfl
    rw [hid, List.map_id]
  · rw [procesarDatos_eq_map]
    decide
  · rw [procesarDatos_eq_map]
    decide

theorem procesarDatos_spec_witness :
    ∃ resultado : List Int, procesarDatos [1, 2, 3, 4, 5] [duplicar, sumarUno] = some resultado ∧
      resultado.length = [1, 2, 3, 4, 5].length ∧
      (∀ (i : Nat) (x : Int), ([1, 2, 3, 4, 5] : List Int)[i]? = some x →
        resultado[i]? = some (aplicarEnOrden [duplicar, sumarUno] x)) ∧
      (procesarDatosMem [1, 2, 3, 4, 5] [duplicar, sumarUno]).map Mem.datos =
        some [1, 2, 3, 4, 5] :=
  procesarDatos_spec.1 [1, 2, 3, 4, 5] [duplicar, sumarUno]

/-- C9: `concatenar(separador, elementos...)` returns the empty string for the empty
sequence, whatever the separator; a single element is returned unchanged; and in general
the result is the elements in order with exactly one copy of the separator between each
adjacent pair, that is the concatenation of the sequence with the separator interspersed.
`concatenar(", ")` is `""` and `concatenar(", ", "a", "b")` is `"a, b"`. -/
theorem concatenar_spec :
    (∀ separador : String, concatenar separador [] = "") ∧
    (∀ separador x : String, concatenar separador [x] = x) ∧
    (∀ (separador x y : String) (resto : List String),
      concatenar separador (x :: y :: resto) =
        x ++ separador ++ concatenar separador (y :: resto)) ∧
    (∀ (separador : String) (elementos : List String),
      concatenar separador elementos = String.join (elementos.intersperse separador)) ∧
    concatenar ", " [] = "" ∧
    concatenar ", " ["a", "b"] = "a, b" := by
  refine ⟨fun _ => rfl, fun _ _ => rfl, ?_, ?_, rfl, by decide⟩
  · intro separador x y resto
    exact Strings.join_cons_cons separador x y resto
  · intro separador elementos
    cases elementos with
    | nil => rfl
    | cons x t => exact Strings.join_eq_intersperse separador (x :: t)

set_option maxRecDepth 10000 in
set_option exponentiation.threshold 20000 in
/-- C10 (as stated) fails on the code: on `(0.1, 0.1, 0.1)` the returned `promedio` is
`0x3FB999999999999B`, greater than the returned `max = 0.1 = 0x3FB999999999999A` (and not
the exact mean `0.1`), and on `(0.7, 0.7, 0.7)` the returned `promedio` is less than the
returned `min`; so `min ≤ promedio ≤ max` does not hold. -/
theorem calcularEstadisticas_promedio_fuera :
    Flotante.calcularEstadisticas [F64.lit 1 10, F64.lit 1 10, F64.lit 1 10] =
      some ⟨F64.lit 1 10, F64.lit 1 10, F64.deBits 0x3FB999999999999B, 3⟩ ∧
    F64.lit 1 10 = F64.deBits 0x3FB999999999999A ∧
    F64.le (F64.deBits 0x3FB999999999999B) (F64.lit 1 10) = false ∧
    Flotante.calcularEstadisticas [F64.lit 7 10, F64.lit 7 10, F64.lit 7 10] =
      some ⟨F64.lit 7 10, F64.lit 7 10, F64.deBits 0x3FE6666666666665, 3⟩ ∧
    F64.lit 7 10 = F64.deBits 0x3FE6666666666666 ∧
    F64.le (F64.lit 7 10) (F64.deBits 0x3FE6666666666665) = false := by
  refine ⟨by decide, by decide, by decide, by decide, by decide, by decide⟩

/-- C10 (amended): for every non-empty sequence `xs` without NaN,
`calcularEstadisticas(xs)` returns (without a panic) `count` = the length of `xs`, a `min`
that is an element of `xs` and is `≤` every element, a `max` that is an element of `xs` and
is `≥` every element, and `promedio` = the float64 quotient of the float64 sum of `xs`,
accumulated from left to right from `0`, by `float64(count)`. -/
theorem calcularEstadisticas_spec (xs : List F64) (hxs : xs ≠ [])
    (hnan : ∀ x ∈ xs, x ≠ F64.nan) :
    ∃ r : Flotante.Estadisticas, Flotante.calcularEstadisticas xs = some r ∧
      r.count = xs.length ∧
      r.min ∈ xs ∧ (∀ x ∈ xs, F64.le r.min x = true) ∧
      r.max ∈ xs ∧ (∀ x ∈ xs, F64.le x r.max = true) ∧
      r.promedio = F64.div (xs.foldl F64.add F64.cero) (F64.deInt r.count) := by
  cases xs with
  | nil => exact absurd rfl hxs
  | cons x t =>
    have hx : x ≠ F64.nan := hnan x (List.mem_cons_self x t)
    obtain ⟨hp1, hp2, hp3⟩ :=
      flotante_estadisticasPaso_proyecciones (x :: t) (x, x, F64.cero)
    obtain ⟨_, hminAll, hminMem⟩ := flotante_foldl_minimo (x :: t) x hnan hx
    obtain ⟨_, hmaxAll, hmaxMem⟩ := flotante_foldl_maximo (x :: t) x hnan hx
    refine ⟨_, flotante_calcularEstadisticas_cons x t, rfl, ?_, ?_, ?_, ?_, ?_⟩
    · show ((x :: t).foldl Flotante.estadisticasPaso (x, x, F64.cero)).1 ∈ x :: t
      rw [hp1]
      rcases hminMem with h | h
      · rw [h]
        exact List.mem_cons_self x t
      · exact h
    · intro y hy
      show F64.le ((x :: t).foldl Flotante.estadisticasPaso (x, x, F64.cero)).1 y = true
      rw [hp1]
      exact hminAll y hy
    · show ((x :: t).foldl Flotante.estadisticasPaso (x, x, F64.cero)).2.1 ∈ x :: t
      rw [hp2]
      rcases hmaxMem with h | h
      · rw [h]
        exact List.mem_cons_self x t
      · exact h
    · intro y hy
      show F64.le y ((x :: t).foldl Flotante.estadisticasPaso (x, x, F64.cero)).2.1 = true
      rw [hp2]
      exact hmaxAll y hy
    · show F64.div ((x :: t).foldl Flotante.estadisticasPaso (x, x, F64.cero)).2.2 _ = _
      rw [hp3]

set_option maxRecDepth 10000 in
set_option exponentiation.threshold 20000 in
theorem calcularEstadisticas_spec_witness :
    Flotante.calcularEstadisticas [F64.deInt 1, F64.deInt 2, F64.deInt 3] =
      some ⟨F64.deInt 1, F64.deInt 3, F64.deInt 2, 3⟩ ∧
    ∃ r : Flotante.Estadisticas,
      Flotante.calcularEstadisticas [F64.deInt 1, F64.deInt 2, F64.deInt 3] = some r ∧
      r.count = [F64.deInt 1, F64.deInt 2, F64.deInt 3].length ∧
      r.min ∈ [F64.deInt 1, F64.deInt 2, F64.deInt 3] ∧
      (∀ x ∈ [F64.deInt 1, F64.deInt 2, F64.deInt 3], F64.le r.min x = true) ∧
      r.max ∈ [F64.deInt 1, F64.deInt 2, F64.deInt 3] ∧
      (∀ x ∈ [F64.deInt 1, F64.deInt 2, F64.deInt 3], F64.le x r.max = true) ∧
      r.promedio =
        F64.div ([F64.deInt 1, F64.deInt 2, F64.deInt 3].foldl F64.add F64.cero)
          (F64.deInt r.count) :=
  ⟨by decide,
   calcularEstadisticas_spec [F64.deInt 1, F64.deInt 2, F64.deInt 3] (by simp) (by decide)⟩

/-- C11: the two aggregation helpers treat the empty input differently:
`calcularEstadisticas()` returns `(min=0, max=0, promedio=0, count=0)` without failing,
whereas `operar(op)` returns the value `0` and the no-input error for every operation name
`op`, supported or not. -/
theorem vacio_estadisticas_operar :
    calcularEstadisticas [] = some ⟨0, 0, 0, 0⟩ ∧
    (∀ (u : Char → Char) (operacion : String),
      operar u operacion [] = some (0, some errSinNumeros)) ∧
    operar id "suma" [] = some (0, some errSinNumeros) ∧
    operar id "raiz" [] = some (0, some errSinNumeros) := by
  refine ⟨?_, operar_nil, operar_nil id "suma", operar_nil id "raiz"⟩
  unfold calcularEstadisticas
  simp

set_option maxRecDepth 10000 in
set_option exponentiation.threshold 20000 in
/-- C12 (as stated) fails on the code: `operar("suma", 9007199254740992, 1)` returns
`9007199254740992`, the value it returns for `9007199254740992` alone, whereas the exact sum
of the two arguments is `9007199254740993`; so the result is not the sum over exact
arithmetic. -/
theorem operar_suma_no_exacta :
    Flotante.operar id "suma" [F64.deInt 9007199254740992, F64.deInt 1] =
      some (F64.deInt 9007199254740992, none) ∧
    F64.valor (F64.deInt 9007199254740992) = some 9007199254740992 ∧
    F64.valor (F64.deInt 1) = some 1 ∧
    ¬ ∃ r : F64, Flotante.operar id "suma" [F64.deInt 9007199254740992, F64.deInt 1] =
        some (r, none) ∧ F64.valor r = some (9007199254740992 + 1) := by
  have hop : Flotante.operar id "suma" [F64.deInt 9007199254740992, F64.deInt 1] =
      some (F64.deInt 9007199254740992, none) := by decide
  have hgrande : F64.deInt 9007199254740992 = F64.num false 0x4340000000000000 (by decide) := by
    decide
  have huno : F64.deInt 1 = F64.num false 0x3FF0000000000000 (by decide) := by decide
  have hv : F64.valor (F64.deInt 9007199254740992) = some 9007199254740992 := by
    rw [hgrande]
    simp [F64.valor, F64.magInf, F64.mantisa, F64.exponente]
    norm_num
  refine ⟨hop, hv, ?_, ?_⟩
  · rw [huno]
    simp [F64.valor, F64.magInf, F64.mantisa, F64.exponente]
    norm_num
  · rintro ⟨r, hr, hval⟩
    rw [hop] at hr
    simp only [Option.some.injEq, Prod.mk.injEq, and_true] at hr
    rw [← hr, hv] at hval
    norm_num at hval

/-- C12 (amended): for every non-empty sequence `xs`, `operar(op, xs)` succeeds exactly when
the lower-cased `op` is one of `"suma"`, `"multiplicacion"`, `"maximo"`, `"minimo"`, and then
returns respectively the float64 sum and the float64 product accumulated from left to right
from the first element, and, when `xs` holds no NaN, the greatest element and the least
element of `xs`; for every other operation name it returns the value `0` and the error that
the operation is not supported. -/
theorem operar_spec (u : Char → Char) (operacion : String) (xs : List F64) (hxs : xs ≠ []) :
    (Strings.ToLower u operacion = "suma" →
      Flotante.operar u operacion xs = some (sumaIzquierda xs, none)) ∧
    (Strings.ToLower u operacion = "multiplicacion" →
      Flotante.operar u operacion xs = some (productoIzquierda xs, none)) ∧
    (Strings.ToLower u operacion = "maximo" → (∀ x ∈ xs, x ≠ F64.nan) →
      ∃ r : F64, Flotante.operar u operacion xs = some (r, none) ∧ r ∈ xs ∧
        ∀ x ∈ xs, F64.le x r = true) ∧
    (Strings.ToLower u operacion = "minimo" → (∀ x ∈ xs, x ≠ F64.nan) →
      ∃ r : F64, Flotante.operar u operacion xs = some (r, none) ∧ r ∈ xs ∧
        ∀ x ∈ xs, F64.le r x = true) ∧
    (Strings.ToLower u operacion ∉ ["suma", "multiplicacion", "maximo", "minimo"] →
      Flotante.operar u operacion xs = some (F64.cero, some (errNoSoportada operacion))) ∧
    ((∃ r : F64, Flotante.operar u operacion xs = some (r, none)) ↔
      Strings.ToLower u operacion ∈ ["suma", "multiplicacion", "maximo", "minimo"]) := by
  cases xs with
  | nil => exact absurd rfl hxs
  | cons x t =>
    refine ⟨flotante_operar_suma u operacion x t,
      flotante_operar_multiplicacion u operacion x t, ?_, ?_,
      flotante_operar_otra u operacion x t, ?_, ?_⟩
    · intro h hnan
      have hx : x ≠ F64.nan := hnan x (List.mem_cons_self x t)
      have ht : ∀ y ∈ t, y ≠ F64.nan := fun y hy => hnan y (List.mem_cons_of_mem x hy)
      obtain ⟨ha, hall, hmem⟩ := flotante_foldl_maximo t x ht hx
      refine ⟨_, flotante_operar_maximo u operacion x t h, ?_, ?_⟩
      · rcases hmem with hm | hm
        · rw [hm]
          exact List.mem_cons_self x t
        · exact List.mem_cons_of_mem x hm
      · intro y hy
        rcases List.mem_cons.mp hy with hy | hy
        · rw [hy]
          exact ha
        · exact hall y hy
    · intro h hnan
      have hx : x ≠ F64.nan := hnan x (List.mem_cons_self x t)
      have ht : ∀ y ∈ t, y ≠ F64.nan := fun y hy => hnan y (List.mem_cons_of_mem x hy)
      obtain ⟨ha, hall, hmem⟩ := flotante_foldl_minimo t x ht hx
      refine ⟨_, flotante_operar_minimo u operacion x t h, ?_, ?_⟩
      · rcases hmem with hm | hm
        · rw [hm]
          exact List.mem_cons_self x t
        · exact List.mem_cons_of_mem x hm
      · intro y hy
        rcases List.mem_cons.mp hy with hy | hy
        · rw [hy]
          exact ha
        · exact hall y hy
    · rintro ⟨r, hr⟩
      by_contra hno
      rw [flotante_operar_otra u operacion x t hno] at hr
      simp at hr
    · intro hmem
      simp only [List.mem_cons, List.mem_singleton, List.not_mem_nil, or_false] at hmem
      rcases hmem with h | h | h | h
      · exact ⟨_, flotante_operar_suma u operacion x t h⟩
      · exact ⟨_, flotante_operar_multiplicacion u operacion x t h⟩
      · exact ⟨_, flotante_operar_maximo u operacion x t h⟩
      · exact ⟨_, flotante_operar_minimo u operacion x t h⟩

set_option maxRecDepth 10000 in
set_option exponentiation.threshold 20000 in
theorem operar_spec_witness :
    Flotante.operar id "suma"
        [F64.deInt 5, F64.deInt 10, F64.deInt 15, F64.deInt 20, F64.deInt 25] =
      some (F64.deInt 75, none) ∧
    Flotante.operar id "multiplicacion"
        [F64.deInt 5, F64.deInt 10, F64.deInt 15, F64.deInt 20, F64.deInt 25] =
      some (F64.deInt 375000, none) ∧
    (∃ r : F64,
      Flotante.operar id "maximo"
          [F64.deInt 5, F64.deInt 10, F64.deInt 15, F64.deInt 20, F64.deInt 25] =
        some (r, none) ∧
      r ∈ [F64.deInt 5, F64.deInt 10, F64.deInt 15, F64.deInt 20, F64.deInt 25] ∧
      ∀ x ∈ [F64.deInt 5, F64.deInt 10, F64.deInt 15, F64.deInt 20, F64.deInt 25],
        F64.le x r = true) ∧
    Flotante.operar id "maximo"
        [F64.deInt 5, F64.deInt 10, F64.deInt 15, F64.deInt 20, F64.deInt 25] =
      some (F64.deInt 25, none) ∧
    Flotante.operar id "minimo"
        [F64.deInt 5, F64.deInt 10, F64.deInt 15, F64.deInt 20, F64.deInt 25] =
      some (F64.deInt 5, none) ∧
    Flotante.operar id "raiz"
        [F64.deInt 5, F64.deInt 10, F64.deInt 15, F64.deInt 20, F64.deInt 25] =
      some (F64.cero, some (errNoSoportada "raiz")) :=
  ⟨((operar_spec id "suma"
        [F64.deInt 5, F64.deInt 10, F64.deInt 15, F64.deInt 20, F64.deInt 25]
        (by simp)).1 (by decide)).trans (by decide),
   ((operar_spec id "multiplicacion"
        [F64.deInt 5, F64.deInt 10, F64.deInt 15, F64.deInt 20, F64.deInt 25]
        (by simp)).2.1 (by decide)).trans (by decide),
   (operar_spec id "maximo"
        [F64.deInt 5, F64.deInt 10, F64.deInt 15, F64.deInt 20, F64.deInt 25]
        (by simp)).2.2.1 (by decide) (by decide),
   by decide, by decide,
   (operar_spec id "raiz"
        [F64.deInt 5, F64.deInt 10, F64.deInt 15, F64.deInt 20, F64.deInt 25]
        (by simp)).2.2.2.2.1 (by decide)⟩

/-- C13: when the upper-cased `operacion` is `SELECT`, `DELETE` or `UPDATE`,
`construirSQL(tabla, operacion, condiciones...)` returns the prefix
`"SELECT * FROM " + tabla`, `"DELETE FROM " + tabla` or `"UPDATE " + tabla + " SET "`
respectively, followed by `" WHERE "` and the conditions joined with `" AND "` exactly when
at least one condition is given, followed by `";"`, the table name and the conditions being
inserted verbatim; for every other operation it returns `"Operación no soportada"` whatever
the table and the conditions. -/
theorem construirSQL_spec (uu : Char → Char) (tabla operacion : String)
    (condiciones : List String) :
    (Strings.ToUpper uu operacion = "SELECT" →
      construirSQL uu tabla operacion condiciones =
        "SELECT * FROM " ++ tabla ++ clausulaWhere condiciones ++ ";") ∧
    (Strings.ToUpper uu operacion = "DELETE" →
      construirSQL uu tabla operacion condiciones =
        "DELETE FROM " ++ tabla ++ clausulaWhere condiciones ++ ";") ∧
    (Strings.ToUpper uu operacion = "UPDATE" →
      construirSQL uu tabla operacion condiciones =
        "UPDATE " ++ tabla ++ " SET " ++ clausulaWhere condiciones ++ ";") ∧
    (Strings.ToUpper uu operacion ∉ ["SELECT", "DELETE", "UPDATE"] →
      construirSQL uu tabla operacion condiciones = "Operación no soportada") ∧
    (clausulaWhere condiciones = "" ↔ condiciones = []) :=
  ⟨construirSQL_select uu tabla operacion condiciones,
   construirSQL_delete uu tabla operacion condiciones,
   construirSQL_update uu tabla operacion condiciones,
   construirSQL_otra uu tabla operacion condiciones,
   clausulaWhere_eq_empty_iff condiciones⟩

theorem construirSQL_spec_witness :
    construirSQL id "usuarios" "SELECT" ["edad > 18", "activo = true"] =
      "SELECT * FROM usuarios WHERE edad > 18 AND activo = true;" ∧
    construirSQL id "usuarios" "select" [] = "SELECT * FROM usuarios;" ∧
    construirSQL id "productos" "DELETE" ["stock = 0"] =
      "DELETE FROM productos WHERE stock = 0;" ∧
    construirSQL id "productos" "DROP" ["stock = 0"] = "Operación no soportada" :=
  ⟨((construirSQL_spec id "usuarios" "SELECT" ["edad > 18", "activo = true"]).1
      (by decide)).trans (by decide),
   ((construirSQL_spec id "usuarios" "select" []).1 (by decide)).trans (by decide),
   ((construirSQL_spec id "productos" "DELETE" ["stock = 0"]).2.1 (by decide)).trans
      (by decide),
   (construirSQL_spec id "productos" "DROP" ["stock = 0"]).2.2.2.1 (by decide)⟩

/-- C14: `operacionConRecursos` releases its simulated resource on every exit path: for
every file name its console output starts with the open line for that file and ends with
the close line for that file, whether it returns an error or `nil`; it returns an error if
and only if the file name is `"error.txt"`, and in that case the success line is not
written (the output is the open, processing and close lines), while otherwise the output is
the open, processing, success and close lines. -/
theorem operacionConRecursos_traza (archivo : String) :
    (operacionConRecursos archivo).1.head? = some (lineaAbrir archivo) ∧
    (operacionConRecursos archivo).1.getLast? = some (lineaCerrar archivo) ∧
    ((operacionConRecursos archivo).2 ≠ none ↔ archivo = "error.txt") ∧
    (archivo = "error.txt" →
      operacionConRecursos archivo =
        ([lineaAbrir archivo, lineaProcesar archivo, lineaCerrar archivo],
          some errProcesar) ∧
      lineaExito archivo ∉ (operacionConRecursos archivo).1) ∧
    (archivo ≠ "error.txt" →
      operacionConRecursos archivo =
        ([lineaAbrir archivo, lineaProcesar archivo, lineaExito archivo,
          lineaCerrar archivo], none)) := by
  by_cases h : archivo = "error.txt"
  · subst h
    rw [operacionConRecursos_error]
    refine ⟨rfl, rfl, by simp, ?_, ?_⟩
    · intro _
      exact ⟨rfl, by decide⟩
    · intro hne
      exact absurd rfl hne
  · rw [operacionConRecursos_exito archivo h]
    refine ⟨rfl, rfl, by simp [h], ?_, ?_⟩
    · intro he
      exact absurd he h
    · intro _
      rfl

theorem operacionConRecursos_traza_witness :
    operacionConRecursos "datos.txt" =
      (["📂 Abriendo archivo: datos.txt\n", "📝 Procesando contenido de: datos.txt\n",
        "✅ Archivo procesado exitosamente: datos.txt\n", "🔒 Cerrando archivo: datos.txt\n"],
        none) ∧
    operacionConRecursos "error.txt" =
      (["📂 Abriendo archivo: error.txt\n", "📝 Procesando contenido de: error.txt\n",
        "🔒 Cerrando archivo: error.txt\n"], some "error al procesar el archivo") :=
  ⟨((operacionConRecursos_traza "datos.txt").2.2.2.2 (by decide)).trans (by decide),
   ((operacionConRecursos_traza "error.txt").2.2.2.1 rfl).1.trans (by decide)⟩

/-- C15: `procesarEdad(edad)` fails if and only if `edad < 0`; for every `edad ≥ 0` it
returns no error and the label `"menor de edad"` when `edad < 18`, `"adulto"` when
`18 ≤ edad < 65`, and `"adulto mayor"` when `edad ≥ 65`. -/
theorem procesarEdad_spec (edad : Int) :
    (edad < 0 → procesarEdad edad = ("", some errEdadNegativa)) ∧
    (0 ≤ edad → edad < 18 → procesarEdad edad = ("menor de edad", none)) ∧
    (18 ≤ edad → edad < 65 → procesarEdad edad = ("adulto", none)) ∧
    (65 ≤ edad → procesarEdad edad = ("adulto mayor", none)) ∧
    ((procesarEdad edad).2 ≠ none ↔ edad < 0) := by
  unfold procesarEdad
  refine ⟨?_, ?_, ?_, ?_, ?_⟩
  · intro h
    rw [if_pos h]
  · intro h0 h18
    rw [if_neg (not_lt.mpr h0), if_pos h18]
  · intro h18 h65
    rw [if_neg (by omega), if_neg (not_lt.mpr h18), if_pos h65]
  · intro h65
    rw [if_neg (by omega), if_neg (by omega), if_neg (not_lt.mpr h65)]
  · by_cases h : edad < 0
    · simp [h]
    · by_cases h18 : edad < 18
      · simp [h, h18]
      · by_cases h65 : edad < 65
        · simp [h, h18, h65]
        · simp [h, h18, h65]

theorem procesarEdad_spec_witness :
    procesarEdad (-5) = ("", some errEdadNegativa) ∧
    procesarEdad 10 = ("menor de edad", none) ∧
    procesarEdad 25 = ("adulto", none) ∧
    procesarEdad 70 = ("adulto mayor", none) ∧
    procesarEdad 0 = ("menor de edad", none) ∧
    procesarEdad 17 = ("menor de edad", none) ∧
    procesarEdad 18 = ("adulto", none) ∧
    procesarEdad 64 = ("adulto", none) ∧
    procesarEdad 65 = ("adulto mayor", none) :=
  ⟨(procesarEdad_spec (-5)).1 (by decide),
   (procesarEdad_spec 10).2.1 (by decide) (by decide),
   (procesarEdad_spec 25).2.2.1 (by decide) (by decide),
   (procesarEdad_spec 70).2.2.2.1 (by decide),
   (procesarEdad_spec 0).2.1 (by decide) (by decide),
   (procesarEdad_spec 17).2.1 (by decide) (by decide),
   (procesarEdad_spec 18).2.2.1 (by decide) (by decide),
   (procesarEdad_spec 64).2.2.1 (by decide) (by decide),
   (procesarEdad_spec 65).2.2.2.1 (by decide)⟩

/-- C16 (as stated) fails on the code: `procesarDatos([]int{1}, nil)` calls the `nil`
function value on the first element and panics, so a helper can terminate abnormally. -/
theorem procesarDatos_nil_panico :
    procesarDatosGo [1] [none] = none ∧
    procesarDatosGo [1, 2, 3] [FuncGo.pura duplicar, none] = none := by
  decide

/-- C16 (amended): with the read `numeros[0]`, the slice `numeros[1:]`, the division by
`len(numeros)`, the write `resultado[i]` and the call of a function value modelled as
partial operations (each fails on the empty sequence, out of range or on `nil`), the
out-of-bounds and divide-by-zero branches are unreachable for every input, the empty
sequence included: `calcularEstadisticas` and `operar` return a result for every input, the
three operations on `numeros` are defined whenever the sequence is non-empty, every pass of
the inner loop of `procesarDatos` writes within bounds, and `procesarDatos` returns a result
whenever `datos` is empty or every function value is a function that returns. -/
theorem sin_terminacion_anormal :
    (∀ xs : List F64, ∃ e : Flotante.Estadisticas,
      Flotante.calcularEstadisticasVerificado xs = some e ∧
        Flotante.calcularEstadisticas xs = some e) ∧
    (∀ (u : Char → Char) (operacion : String) (xs : List F64),
      ∃ r : F64 × Option String, Flotante.operar u operacion xs = some r) ∧
    (∀ (datos : List Int) (funciones : List (Int → Int)),
      ∃ r : List Int, procesarDatosGo datos (funciones.map FuncGo.pura) = some r ∧
        procesarDatos datos funciones = some r) ∧
    (∀ funciones : List FuncGo, procesarDatosGo [] funciones = some []) ∧
    (∀ (xs : List F64) (s : F64), xs.length ≠ 0 →
      (∃ x : F64, xs[0]? = some x) ∧ (∃ t : List F64, Flotante.rebanarDesde xs 1 = some t) ∧
        (∃ q : F64, Flotante.dividirPorLongitud s xs.length = some q)) ∧
    (∀ (g : Int → Int) (resultado : List Int),
      ∃ r : List Int,
        aplicarFuncionGo (FuncGo.pura g) resultado.length 0 resultado = some r) ∧
    (([] : List F64)[0]? = none ∧ Flotante.rebanarDesde [] 1 = none ∧
      Flotante.dividirPorLongitud F64.cero ([] : List F64).length = none ∧
      escribir [] 0 1 = none ∧ llamar none 1 = none) := by
  refine ⟨?_, flotante_operar_total, ?_, procesarDatosGo_vacio, ?_, ?_, ?_⟩
  · intro xs
    obtain ⟨e, he⟩ := flotante_calcularEstadisticas_total xs
    exact ⟨e, by rw [flotante_calcularEstadisticasVerificado_eq, he], he⟩
  · intro datos funciones
    exact ⟨_, procesarDatosGo_pura datos funciones, procesarDatos_eq_map datos funciones⟩
  · intro xs s hxs
    cases xs with
    | nil => exact absurd rfl hxs
    | cons x t =>
      refine ⟨⟨x, by simp⟩, ⟨t, by unfold Flotante.rebanarDesde; simp⟩, ?_⟩
      have hn : ¬ (x :: t).length = 0 := by simp
      exact ⟨_, by unfold Flotante.dividirPorLongitud; rw [if_neg hn]⟩
  · intro g resultado
    exact ⟨_, by rw [aplicarFuncionGo_pura]; exact aplicarFuncion_all g resultado⟩
  · exact ⟨rfl, by decide, by decide, by decide, rfl⟩

theorem sin_terminacion_anormal_witness :
    (∃ x : F64, ([F64.deInt 7, F64.deInt 8] : List F64)[0]? = some x) ∧
    (∃ t : List F64, Flotante.rebanarDesde [F64.deInt 7, F64.deInt 8] 1 = some t) ∧
    (∃ q : F64,
      Flotante.dividirPorLongitud (F64.deInt 15) [F64.deInt 7, F64.deInt 8].length = some q) :=
  sin_terminacion_anormal.2.2.2.2.1 [F64.deInt 7, F64.deInt 8] (F64.deInt 15) (by decide)


/-- C17: `validarUsuario` reports one error, chosen by the precedence name > email > age: a
name that is blank after trimming gives the empty-name error whatever the email and the
age; a non-blank name with an email that lacks `"@"` or `"."` gives the invalid-email error
whatever the age; the age-range error is returned exactly when the name and the email both
pass and the age is outside `0..120`; and the result is always `nil` or one of these three
errors. -/
theorem validarUsuario_precedencia (nombre email : String) (edad : Int) :
    (Strings.TrimSpace nombre = "" →
      validarUsuario nombre email edad = some errNombreVacio) ∧
    (Strings.TrimSpace nombre ≠ "" →
      (Strings.Contains email "@" = false ∨ Strings.Contains email "." = false) →
      validarUsuario nombre email edad = some errEmailInvalido) ∧
    (validarUsuario nombre email edad = some errEdadRango ↔
      (Strings.TrimSpace nombre ≠ "" ∧ Strings.Contains email "@" = true ∧
        Strings.Contains email "." = true ∧ (edad < 0 ∨ edad > 120))) ∧
    validarUsuario nombre email edad ∈
      [none, some errNombreVacio, some errEmailInvalido, some errEdadRango] := by
  have h12 : ¬ (some errNombreVacio = some errEdadRango) := by decide
  have h23 : ¬ (some errEmailInvalido = some errEdadRango) := by decide
  refine ⟨validarUsuario_nombre nombre email edad, validarUsuario_email nombre email edad,
    ?_, ?_⟩
  · by_cases hn : Strings.TrimSpace nombre = ""
    · rw [validarUsuario_nombre nombre email edad hn]
      simp [hn, h12]
    · by_cases ha : Strings.Contains email "@" = true
      · by_cases hd : Strings.Contains email "." = true
        · rw [validarUsuario_resto nombre email edad hn ha hd]
          by_cases he : edad < 0 ∨ edad > 120
          · simp [hn, ha, hd, he]
          · simp [hn, ha, hd, he]
        · rw [validarUsuario_email nombre email edad hn (Or.inr (by simpa using hd))]
          simp [hd, h23]
      · rw [validarUsuario_email nombre email edad hn (Or.inl (by simpa using ha))]
        simp [ha, h23]
  · by_cases hn : Strings.TrimSpace nombre = ""
    · rw [validarUsuario_nombre nombre email edad hn]
      simp
    · by_cases ha : Strings.Contains email "@" = true
      · by_cases hd : Strings.Contains email "." = true
        · rw [validarUsuario_resto nombre email edad hn ha hd]
          by_cases he : edad < 0 ∨ edad > 120
          · rw [if_pos he]
            simp
          · rw [if_neg he]
            simp
        · rw [validarUsuario_email nombre email edad hn (Or.inr (by simpa using hd))]
          simp
      · rw [validarUsuario_email nombre email edad hn (Or.inl (by simpa using ha))]
        simp

theorem validarUsuario_precedencia_witness :
    validarUsuario "" "invalido@" 25 = some errNombreVacio ∧
    validarUsuario "María García" "maria@empresa.com" (-5) = some errEdadRango ∧
    validarUsuario "Jane" "invalido@" 150 = some errEmailInvalido :=
  ⟨(validarUsuario_precedencia "" "invalido@" 25).1 (by decide),
   (validarUsuario_precedencia "María García" "maria@empresa.com" (-5)).2.2.1.mpr
     ⟨by decide, by decide, by decide, by decide⟩,
   (validarUsuario_precedencia "Jane" "invalido@" 150).2.1 (by decide) (by decide)⟩

/-- C18: the `requeridos` flag of `validarCampos` has no effect on its result: for every
list of fields, `validarCampos(true, campos)` and `validarCampos(false, campos)` return the
same boolean and the same list.  In both cases the boolean is `true` if and only if no field
is blank after trimming white space, and the returned list has exactly one `"campo vacío"`
entry per blank field. -/
theorem validarCampos_requeridos_sin_efecto :
    (∀ campos : List String, validarCampos true campos = validarCampos false campos) ∧
    (∀ (requeridos : Bool) (campos : List String),
      (validarCampos requeridos campos).1 = true ↔
        ∀ campo ∈ campos, Strings.TrimSpace campo ≠ "") ∧
    (∀ (requeridos : Bool) (campos : List String),
      (validarCampos requeridos campos).2 =
        List.replicate
          (campos.countP (fun campo => decide (Strings.TrimSpace campo = "")))
          "campo vacío") ∧
    validarCampos true ["Juan", "juan@email.com", "123456789"] = (true, []) ∧
    validarCampos true ["María", "", "987654321"] = (false, ["campo vacío"]) ∧
    validarCampos false ["María", "", "987654321"] = (false, ["campo vacío"]) := by
  refine ⟨?_, ?_, ?_, by decide, by decide, by decide⟩
  · intro campos
    rw [validarCampos_eq, validarCampos_eq]
  · intro requeridos campos
    rw [validarCampos_eq]
    simp [List.countP_eq_zero]
  · intro requeridos campos
    rw [validarCampos_eq]

theorem validarCampos_requeridos_sin_efecto_witness :
    validarCampos true ["a", " ", "\t", "b"] = validarCampos false ["a", " ", "\t", "b"] ∧
    (validarCampos true ["a", " ", "\t", "b"]).2 = ["campo vacío", "campo vacío"] :=
  ⟨validarCampos_requeridos_sin_efecto.1 ["a", " ", "\t", "b"],
   (validarCampos_requeridos_sin_efecto.2.2.1 true ["a", " ", "\t", "b"]).trans (by decide)⟩

/-- C20: pipelines compose: for every sequence `datos` and every two lists of unary
functions `fs` and `gs`, `procesarDatos(procesarDatos(datos, fs...), gs...)` equals
`procesarDatos(datos, (fs ++ gs)...)`; and the stage-wise application across the whole
sequence equals the element-wise application of the composed function. -/
theorem procesarDatos_componer :
    (∀ (datos : List Int) (fs gs : List (Int → Int)),
      (procesarDatos datos fs).bind (fun intermedio => procesarDatos intermedio gs) =
        procesarDatos datos (fs ++ gs)) ∧
    (∀ (datos : List Int) (fs : List (Int → Int)),
      procesarDatos datos fs = some (datos.map (aplicarEnOrden fs))) ∧
    (∀ (fs gs : List (Int → Int)) (x : Int),
      aplicarEnOrden (fs ++ gs) x = aplicarEnOrden gs (aplicarEnOrden fs x)) ∧
    (procesarDatos [1, 2, 3, 4, 5] [duplicar]).bind
        (fun intermedio => procesarDatos intermedio [sumarUno, elevarCuadrado]) =
      some [9, 25, 49, 81, 121] ∧
    procesarDatos [1, 2, 3, 4, 5] [duplicar, sumarUno, elevarCuadrado] =
      some [9, 25, 49, 81, 121] := by
  refine ⟨?_, procesarDatos_eq_map, aplicarEnOrden_append, ?_, ?_⟩
  · intro datos fs gs
    rw [procesarDatos_eq_map, procesarDatos_eq_map, Option.some_bind, procesarDatos_eq_map,
      List.map_map]
    congr 2
    funext x
    exact (aplicarEnOrden_append fs gs x).symm
  · rw [procesarDatos_eq_map, Option.some_bind, procesarDatos_eq_map]
    decide
  · rw [procesarDatos_eq_map]
    decide
